import Mathlib

/-!
Verification of the powerquery-parser core against its specification.

Shallow embedding of the TypeScript sources:
  * `src/inspection/position/positionUtils.ts`
  * `src/inspection/visitNode.ts`
  * `src/parser/IParserState/IParserStateUtils.ts` (plus the ancestry utilities
    bundled with it)
  * `src/parser/nodeIdMap/nodeIdMapIterator.ts`
  * `src/inspection/type/tasks.ts`
  * `src/inspection/type/inspectType/inspectTypeParameter.ts`

JavaScript `Map`s are embedded as insertion-ordered association lists,
JavaScript `number`s used for line/column arithmetic as `Int` (so that
`lineCodeUnit - 1` can go to `-1` exactly as in JS), node ids as `Nat`,
thrown exceptions as `Except JsErr`, and `undefined` as `Option.none`.
Functions of the repository that are not part of the given sources
(`NodeIdMapUtils`, `ParseContextUtils`, the inspection driver) are modelled
from the spec and marked as such in their doc comments.
-/

/-- A runtime failure (`CommonError.InvariantError`, a JS `TypeError`, ...). -/
inductive JsErr
  | invariantError (message : String)
  deriving DecidableEq

/-- `(lineNumber, lineCodeUnit)` of a token boundary.  The source's
`TokenPosition` also carries a document-absolute `codeUnit`, which none of the
embedded functions read, so it is omitted. -/
structure TokenPosition where
  lineNumber : Int
  lineCodeUnit : Int
  deriving DecidableEq

/-- A cursor position, `{lineNumber, lineCodeUnit}`, both zero-based. -/
structure Position where
  lineNumber : Int
  lineCodeUnit : Int
  deriving DecidableEq

/-- The token kinds named by the embedded sources.  The cases listed in
`isOnGeneralizedIdentifierStart` appear verbatim; the remainder of the closed
enumeration (literals and punctuation) is modelled from the spec (§3, §6). -/
inductive TokenKind
  | Ampersand | Asterisk | AtSign | Bang | Comma | Division | DotDot | Ellipsis
  | Equal | FatArrow | GreaterThan | GreaterThanEqualTo | HexLiteral
  | Identifier
  | KeywordAnd | KeywordAs | KeywordEach | KeywordElse | KeywordError
  | KeywordFalse
  | KeywordHashBinary | KeywordHashDate | KeywordHashDateTime
  | KeywordHashDateTimeZone | KeywordHashDuration | KeywordHashInfinity
  | KeywordHashNan | KeywordHashSections | KeywordHashShared
  | KeywordHashTable | KeywordHashTime
  | KeywordIf | KeywordIn | KeywordIs | KeywordLet | KeywordMeta | KeywordNot
  | KeywordOr | KeywordOtherwise | KeywordSection | KeywordShared
  | KeywordThen | KeywordTrue | KeywordTry | KeywordType
  | LeftBrace | LeftBracket | LeftParenthesis | LessThan | LessThanEqualTo
  | Minus | NotEqual | NullLiteral | NumericLiteral | Plus | QuestionMark
  | RightBrace | RightBracket | RightParenthesis | Semicolon | StringLiteral
  deriving DecidableEq

/-- `(kind, data, positionStart, positionEnd)`. -/
structure Token where
  kind : TokenKind
  data : String
  positionStart : TokenPosition
  positionEnd : TokenPosition
  deriving DecidableEq

/-- The AST node kinds named by the embedded sources (a subset of the ~80
`NodeKind`s; all unnamed kinds behave like `LiteralExpression` here: every
embedded `switch` sends them to its `default` branch). -/
inductive NodeKind
  | ArrayWrapper | Constant | Csv | EachExpression | FieldProjection
  | FieldSpecificationList | FunctionExpression | GeneralizedIdentifier
  | GeneralizedIdentifierPairedExpression | Identifier | IdentifierExpression
  | IdentifierPairedExpression | InvokeExpression | LetExpression
  | ListExpression | ListLiteral | ListType | LiteralExpression | Parameter
  | ParameterList | PrimitiveType | RecordExpression | RecordLiteral
  | RecursivePrimaryExpression | Section | SectionMember
  deriving DecidableEq

/-- The kind-specific fields of an AST node that the embedded functions read.
`wrapped` stands for the wrapped-constant family (`InvokeExpression`,
`ListExpression`, `ListLiteral`, `RecordExpression`, `RecordLiteral`), of which
only `closeWrapperConstant.tokenRange.positionEnd` is read. -/
inductive AstPayload
  | identifier (literal : String)
  | generalizedIdentifier (literal : String)
  | constant (literal : String)
  | identifierExpression (maybeInclusiveConstantLiteral : Option String)
      (identifierLiteral : String)
  | wrapped (closeWrapperEnd : TokenPosition)
  | noPayload
  deriving DecidableEq

/-- `{tokenIndexStart, tokenIndexEnd, positionStart, positionEnd}`. -/
structure TokenRange where
  tokenIndexStart : Nat
  tokenIndexEnd : Nat
  positionStart : TokenPosition
  positionEnd : TokenPosition
  deriving DecidableEq

/-- A completed AST node (`Ast.TNode`). -/
structure AstNode where
  id : Nat
  kind : NodeKind
  maybeAttributeIndex : Option Int
  tokenRange : TokenRange
  isLeaf : Bool
  payload : AstPayload
  deriving DecidableEq

/-- An in-construction parse context node (`ParserContext.Node`). -/
structure ContextNode where
  id : Nat
  kind : NodeKind
  tokenIndexStart : Nat
  maybeTokenStart : Option Token
  attributeCounter : Nat
  maybeAttributeIndex : Option Int
  deriving DecidableEq

/-- `TXorNode`: either an AST node or a context node. -/
inductive TXorNode
  | astXor (node : AstNode)
  | contextXor (node : ContextNode)
  deriving DecidableEq

/-- `xorNode.node.id`. -/
def TXorNode.nodeId : TXorNode → Nat
  | .astXor n => n.id
  | .contextXor n => n.id

/-- `xorNode.node.kind`. -/
def TXorNode.nodeKind : TXorNode → NodeKind
  | .astXor n => n.kind
  | .contextXor n => n.kind

/-- `xorNode.node.maybeAttributeIndex`. -/
def TXorNode.nodeAttributeIndex : TXorNode → Option Int
  | .astXor n => n.maybeAttributeIndex
  | .contextXor n => n.maybeAttributeIndex

/-- A JS `Map` keyed by node id, as an insertion-ordered association list. -/
def lookupMap {α : Type} : List (Nat × α) → Nat → Option α
  | [], _ => none
  | (k, v) :: rest, key => if k = key then some v else lookupMap rest key

/-- `Map.delete`. -/
def eraseKey {α : Type} (m : List (Nat × α)) (key : Nat) : List (Nat × α) :=
  m.filter (fun kv => kv.1 ≠ key)

/-- `Map.set` on an existing key: replace the value in place. -/
def mapUpdate {α : Type} (m : List (Nat × α)) (key : Nat) (f : α → α) :
    List (Nat × α) :=
  m.map (fun kv => if kv.1 = key then (kv.1, f kv.2) else kv)

theorem lookupMap_eraseKey {α : Type} (m : List (Nat × α)) (key i : Nat)
    (h : i ≠ key) : lookupMap (eraseKey m key) i = lookupMap m i := by
  induction m with
  | nil => rfl
  | cons kv rest ih =>
    obtain ⟨k, v⟩ := kv
    by_cases hk : k = key
    · have hki : ¬ k = i := fun hc => h (hc ▸ hk)
      rw [show eraseKey ((k, v) :: rest) key = eraseKey rest key by
        simp [eraseKey, hk]]
      rw [ih, show lookupMap ((k, v) :: rest) i = lookupMap rest i by
        simp [lookupMap, hki]]
    · rw [show eraseKey ((k, v) :: rest) key = (k, v) :: eraseKey rest key by
        simp [eraseKey, hk]]
      by_cases hi : k = i <;> simp [lookupMap, hi, ih]

theorem lookupMap_mapUpdate {α : Type} (m : List (Nat × α)) (key i : Nat)
    (f : α → α) (h : i ≠ key) :
    lookupMap (mapUpdate m key f) i = lookupMap m i := by
  induction m with
  | nil => rfl
  | cons kv rest ih =>
    obtain ⟨k, v⟩ := kv
    by_cases hk : k = key
    · have hki : ¬ k = i := fun hc => h (hc ▸ hk)
      rw [show mapUpdate ((k, v) :: rest) key f
            = (k, f v) :: mapUpdate rest key f by simp [mapUpdate, hk]]
      simp [lookupMap, hki, ih]
    · rw [show mapUpdate ((k, v) :: rest) key f
            = (k, v) :: mapUpdate rest key f by simp [mapUpdate, hk]]
      by_cases hi : k = i <;> simp [lookupMap, hi, ih]

/-- The node-id map (`NodeIdMap.Collection`). -/
structure Collection where
  astNodeById : List (Nat × AstNode)
  contextNodeById : List (Nat × ContextNode)
  parentIdById : List (Nat × Nat)
  childIdsById : List (Nat × List Nat)
  deriving DecidableEq

/-- `NodeIdMapUtils.maybeXorNode`: resolve an id to an AST node first, a
context node second.  Modelled from the spec (§4.4, `maybeXor(id)`). -/
def maybeXorNode (coll : Collection) (nodeId : Nat) : Option TXorNode :=
  match lookupMap coll.astNodeById nodeId with
  | some astNode => some (.astXor astNode)
  | none => (lookupMap coll.contextNodeById nodeId).map .contextXor

/-- `NodeIdMapUtils.assertXor` / `expectXorNode`: as `maybeXorNode` but throws
on a dangling id.  Modelled from the spec (§4.4, `assertXor(id)`). -/
def assertXor (coll : Collection) (nodeId : Nat) : Except JsErr TXorNode :=
  match maybeXorNode coll nodeId with
  | some xorNode => pure xorNode
  | none => throw (.invariantError "expected nodeId to be in the collection")

/-- Modelled from the spec: `NodeIdMapUtils.maybeRightMostLeaf` is not under
`src/` (§4.4 describes it: "descends rightward via `childIdsById` until a
leaf; used by the position inspector to find the end of a context node").
`fuel` bounds the descent depth; `maybeRightMostLeaf` below instantiates it
with a bound sufficient for every acyclic collection. -/
def maybeRightMostLeafFueled (coll : Collection) : Nat → Nat → Option AstNode
  | 0, _ => none
  | fuel + 1, nodeId =>
    match lookupMap coll.childIdsById nodeId with
    | some childIds =>
        childIds.reverse.findSome? (fun childId =>
          maybeRightMostLeafFueled coll fuel childId)
    | none => lookupMap coll.astNodeById nodeId

/-- `NodeIdMapUtils.maybeRightMostLeaf` (see `maybeRightMostLeafFueled`). -/
def maybeRightMostLeaf (coll : Collection) (nodeId : Nat) : Option AstNode :=
  maybeRightMostLeafFueled coll (coll.childIdsById.length + 1) nodeId

/-- `positionUtils.isBeforeTokenPosition`. -/
def isBeforeTokenPosition (position : Position) (tokenPosition : TokenPosition)
    (isBoundIncluded : Bool) : Bool :=
  let positionLineNumber : Int := position.lineNumber
  if positionLineNumber < tokenPosition.lineNumber then
    true
  else if positionLineNumber > tokenPosition.lineNumber then
    false
  else
    let upperBound : Int :=
      if isBoundIncluded then tokenPosition.lineCodeUnit
      else tokenPosition.lineCodeUnit + 1
    position.lineCodeUnit < upperBound

/-- `positionUtils.isOnTokenPosition`. -/
def isOnTokenPosition (position : Position) (tokenPosition : TokenPosition) :
    Bool :=
  position.lineNumber = tokenPosition.lineNumber
    ∧ position.lineCodeUnit = tokenPosition.lineCodeUnit

/-- `positionUtils.isAfterTokenPosition`. -/
def isAfterTokenPosition (position : Position) (tokenPosition : TokenPosition)
    (isBoundIncluded : Bool) : Bool :=
  let positionLineNumber : Int := position.lineNumber
  if positionLineNumber < tokenPosition.lineNumber then
    false
  else if positionLineNumber > tokenPosition.lineNumber then
    true
  else
    let upperBound : Int :=
      if isBoundIncluded then tokenPosition.lineCodeUnit
      else tokenPosition.lineCodeUnit - 1
    position.lineCodeUnit > upperBound

/-- `positionUtils.isBeforeAstNode`. -/
def isBeforeAstNode (position : Position) (astNode : AstNode)
    (isBoundIncluded : Bool) : Bool :=
  isBeforeTokenPosition position astNode.tokenRange.positionStart
    isBoundIncluded

/-- `positionUtils.isOnAstNodeStart`. -/
def isOnAstNodeStart (position : Position) (astNode : AstNode) : Bool :=
  isOnTokenPosition position astNode.tokenRange.positionStart

/-- `positionUtils.isOnAstNodeEnd`. -/
def isOnAstNodeEnd (position : Position) (astNode : AstNode) : Bool :=
  isOnTokenPosition position astNode.tokenRange.positionEnd

/-- `positionUtils.isAfterAstNode`. -/
def isAfterAstNode (position : Position) (astNode : AstNode)
    (isBoundIncluded : Bool) : Bool :=
  isAfterTokenPosition position astNode.tokenRange.positionEnd isBoundIncluded

/-- `positionUtils.isInAstNode`. -/
def isInAstNode (position : Position) (astNode : AstNode)
    (isLowerBoundIncluded : Bool) (isHigherBoundIncluded : Bool) : Bool :=
  !isBeforeAstNode position astNode isLowerBoundIncluded
    && !isAfterAstNode position astNode isHigherBoundIncluded

/-- `positionUtils.isBeforeContextNode`. -/
def isBeforeContextNode (position : Position) (contextNode : ContextNode)
    (isBoundIncluded : Bool) : Bool :=
  match contextNode.maybeTokenStart with
  | none => false
  | some tokenStart =>
      isBeforeTokenPosition position tokenStart.positionStart isBoundIncluded

/-- `positionUtils.isAfterContextNode`. -/
def isAfterContextNode (position : Position) (coll : Collection)
    (contextNode : ContextNode) (isBoundIncluded : Bool) : Bool :=
  match maybeRightMostLeaf coll contextNode.id with
  | none =>
      -- We're assuming position is a valid range for the document.
      -- Therefore if the context node didn't have a token (caused by EOF)
      -- we can make this assumption.
      match contextNode.maybeTokenStart with
      | none => false
      | some tokenStart =>
          isAfterTokenPosition position tokenStart.positionEnd isBoundIncluded
  | some leaf => isAfterAstNode position leaf isBoundIncluded

/-- `positionUtils.isInContextNode`. -/
def isInContextNode (position : Position) (coll : Collection)
    (contextNode : ContextNode) (isLowerBoundIncluded : Bool)
    (isHigherBoundIncluded : Bool) : Bool :=
  !isBeforeContextNode position contextNode isLowerBoundIncluded
    && !isAfterContextNode position coll contextNode isHigherBoundIncluded

/-- `positionUtils.isOnContextNodeStart`. -/
def isOnContextNodeStart (position : Position) (contextNode : ContextNode) :
    Bool :=
  match contextNode.maybeTokenStart with
  | some tokenStart => isOnTokenPosition position tokenStart.positionStart
  | none => false

/-- `positionUtils.isOnContextNodeEnd`. -/
def isOnContextNodeEnd (position : Position) (contextNode : ContextNode)
    (coll : Collection) : Bool :=
  match maybeRightMostLeaf coll contextNode.id with
  | none => false
  | some leaf => isOnAstNodeEnd position leaf

/-- `positionUtils.isBeforeXorNode`. -/
def isBeforeXorNode (position : Position) (xorNode : TXorNode)
    (isBoundIncluded : Bool) : Bool :=
  match xorNode with
  | .astXor node => isBeforeAstNode position node isBoundIncluded
  | .contextXor node => isBeforeContextNode position node isBoundIncluded

/-- `positionUtils.isInXorNode`. -/
def isInXorNode (position : Position) (coll : Collection)
    (xorNode : TXorNode) (isLowerBoundIncluded : Bool)
    (isUpperBoundIncluded : Bool) : Bool :=
  match xorNode with
  | .astXor node =>
      isInAstNode position node isLowerBoundIncluded isUpperBoundIncluded
  | .contextXor node =>
      isInContextNode position coll node isLowerBoundIncluded
        isUpperBoundIncluded

/-- `positionUtils.isOnXorNodeStart`. -/
def isOnXorNodeStart (position : Position) (xorNode : TXorNode) : Bool :=
  match xorNode with
  | .astXor node => isOnAstNodeStart position node
  | .contextXor node => isOnContextNodeStart position node

/-- `positionUtils.isOnXorNodeEnd`. -/
def isOnXorNodeEnd (position : Position) (xorNode : TXorNode)
    (coll : Collection) : Bool :=
  match xorNode with
  | .astXor node => isOnAstNodeEnd position node
  | .contextXor node => isOnContextNodeEnd position node coll

/-- `positionUtils.isAfterXorNode`. -/
def isAfterXorNode (position : Position) (coll : Collection)
    (xorNode : TXorNode) (isBoundIncluded : Bool) : Bool :=
  match xorNode with
  | .astXor node => isAfterAstNode position node isBoundIncluded
  | .contextXor node => isAfterContextNode position coll node isBoundIncluded

/-- C4 counterexample data: a context node that has a start token but no AST
descendant (so `maybeRightMostLeaf` is absent). -/
def c4Token : Token :=
  { kind := .LeftBrace, data := "\x7b", positionStart := ⟨0, 0⟩,
    positionEnd := ⟨0, 1⟩ }

/-- C4 counterexample data: the context node. -/
def c4ContextNode : ContextNode :=
  { id := 1, kind := .ListExpression, tokenIndexStart := 0,
    maybeTokenStart := some c4Token, attributeCounter := 1,
    maybeAttributeIndex := none }

/-- C4 counterexample data: a collection holding only the context node. -/
def c4Collection : Collection :=
  { astNodeById := [], contextNodeById := [(1, c4ContextNode)],
    parentIdById := [], childIdsById := [] }

/-- C4 counterexample data: a cursor after the start token's end. -/
def c4Position : Position := ⟨0, 5⟩

/-- C4 witness data: a context node with no start token at all. -/
def c4wContextNode : ContextNode :=
  { id := 1, kind := .ListExpression, tokenIndexStart := 0,
    maybeTokenStart := none, attributeCounter := 0,
    maybeAttributeIndex := none }

/-- C4 witness data: a collection holding only that context node. -/
def c4wCollection : Collection :=
  { astNodeById := [], contextNodeById := [(1, c4wContextNode)],
    parentIdById := [], childIdsById := [] }

/-- C4 (counterexample): for a context node whose `maybeRightMostLeaf` is
absent but whose `maybeTokenStart` is present, `isAfterXorNode` does NOT
always return false: with the cursor at (0,5), past the start token's end
(0,1), it returns true, and `isInXorNode` returns false even though the
cursor is at-or-after the node's start — contradicting the claim. -/
theorem isAfterContextNode_absentLeaf_counterexample :
    maybeRightMostLeaf c4Collection c4ContextNode.id = none
      ∧ isAfterXorNode c4Position c4Collection (.contextXor c4ContextNode)
          false = true
      ∧ isInXorNode c4Position c4Collection (.contextXor c4ContextNode)
          true true = false
      ∧ isBeforeTokenPosition c4Position c4Token.positionStart true
          = false := by
  decide

/-- C4 (amended): for a context node whose `maybeRightMostLeaf` is absent,
`isAfterXorNode` returns false and `isInXorNode` returns true only when the
node also lacks a start token; when a start token is present, "after" is
decided against the start token's `positionEnd`. -/
theorem isAfterContextNode_absentLeaf_amended (position : Position)
    (coll : Collection) (contextNode : ContextNode) (isBoundIncluded : Bool)
    (isLowerBoundIncluded : Bool) (isUpperBoundIncluded : Bool)
    (h : maybeRightMostLeaf coll contextNode.id = none) :
    (contextNode.maybeTokenStart = none →
        isAfterXorNode position coll (.contextXor contextNode)
            isBoundIncluded = false
          ∧ isInXorNode position coll (.contextXor contextNode)
              isLowerBoundIncluded isUpperBoundIncluded = true)
      ∧ (∀ tokenStart, contextNode.maybeTokenStart = some tokenStart →
          isAfterXorNode position coll (.contextXor contextNode)
              isBoundIncluded
            = isAfterTokenPosition position tokenStart.positionEnd
                isBoundIncluded) := by
  constructor
  · intro hstart
    constructor
    · simp [isAfterXorNode, isAfterContextNode, h, hstart]
    · simp [isInXorNode, isInContextNode, isAfterContextNode,
        isBeforeContextNode, h, hstart]
  · intro tokenStart hstart
    simp [isAfterXorNode, isAfterContextNode, h, hstart]

/-- C4 (witness): the amended theorem applied to a concrete context node with
neither an AST descendant nor a start token. -/
theorem isAfterContextNode_absentLeaf_amended_witness :
    isAfterXorNode c4Position c4wCollection (.contextXor c4wContextNode)
        false = false
      ∧ isInXorNode c4Position c4wCollection (.contextXor c4wContextNode)
          true true = true :=
  (isAfterContextNode_absentLeaf_amended c4Position c4wCollection
      c4wContextNode false true true (by decide)).1 (by decide)

deriving instance DecidableEq for Except

/-- Helper for `maybeChildByAttributeIndex`: scan the parent's child ids for
the one whose `maybeAttributeIndex` equals the requested index. -/
def maybeChildFromIds (coll : Collection) (attributeIndex : Int)
    (maybeAllowedNodeKinds : Option (List NodeKind)) :
    List Nat → Except JsErr (Option TXorNode)
  | [] => pure none
  | childId :: rest => do
    let xorNode ← assertXor coll childId
    if xorNode.nodeAttributeIndex = some attributeIndex then
      match maybeAllowedNodeKinds with
      | some allowedNodeKinds =>
          if xorNode.nodeKind ∈ allowedNodeKinds then pure (some xorNode)
          else pure none
      | none => pure (some xorNode)
    else
      maybeChildFromIds coll attributeIndex maybeAllowedNodeKinds rest

/-- Modelled from the spec: `NodeIdMap.maybeChildByAttributeIndex`
(§4.4, `maybeChildXorByAttributeIndex`) is not under `src/`: "returns the
child whose `maybeAttributeIndex == attrIdx` if its kind is in
`allowedKinds` (or if `allowedKinds` is absent)". -/
def maybeChildByAttributeIndex (coll : Collection) (parentId : Nat)
    (attributeIndex : Int)
    (maybeAllowedNodeKinds : Option (List NodeKind)) :
    Except JsErr (Option TXorNode) :=
  match lookupMap coll.childIdsById parentId with
  | none => pure none
  | some childIds =>
      maybeChildFromIds coll attributeIndex maybeAllowedNodeKinds childIds

/-- Modelled from the spec: `NodeIdMapUtils.maybeChildAstByAttributeIndex`
(§4.4) is not under `src/`: "same but requires the child to already be an
AST node". -/
def maybeChildAstByAttributeIndex (coll : Collection) (parentId : Nat)
    (attributeIndex : Int)
    (maybeAllowedNodeKinds : Option (List NodeKind)) :
    Except JsErr (Option AstNode) := do
  match ← maybeChildByAttributeIndex coll parentId attributeIndex
      maybeAllowedNodeKinds with
  | some (.astXor astNode) => pure (some astNode)
  | _ => pure none

/-- The closed family of structural type kinds (§4.6). -/
inductive TypeKind
  | Any | AnyNonNull | Binary | Date | DateTime | DateTimeZone | Duration
  | Function | List | Logical | Null | Number | Record | Table | Text | Time
  | Type | Action | None | Unknown
  deriving DecidableEq

/-- `Type.TType`: a type kind paired with nullability.  The richer shapes
(record fields, function signatures, list element types) are not read by any
embedded function and are omitted. -/
structure TType where
  kind : TypeKind
  isNullable : Bool
  deriving DecidableEq

/-- `inspectTypeParameter` (`inspectType/inspectTypeParameter.ts`).
`inspectTypeFromChildAttributeIndex` lives in `inspectType/common.ts`, which
is not under `src/`; it is taken here as a function argument. -/
def inspectTypeParameter (coll : Collection)
    (inspectTypeFromChildAttributeIndex : TXorNode → Int → Except JsErr TType)
    (xorNode : TXorNode) : Except JsErr TType :=
  if xorNode.nodeKind = NodeKind.Parameter then do
    let maybeOptionalConstant ←
      maybeChildAstByAttributeIndex coll xorNode.nodeId 0
        (some [NodeKind.Constant])
    let maybeParameterType ← inspectTypeFromChildAttributeIndex xorNode 2
    pure { maybeParameterType with
            isNullable :=
              maybeOptionalConstant.isSome || maybeParameterType.isNullable }
  else
    throw (.invariantError "expected xorNode to be of kind Parameter")

/-- C8: for every `Parameter` node, the type returned by
`inspectTypeParameter` has `isNullable` equal to the disjunction of the
presence of the `optional` constant at child attribute index 0 and the
`isNullable` flag of the type inspected from child attribute index 2. -/
theorem inspectTypeParameter_isNullable_disjunction (coll : Collection)
    (inspectTypeFromChildAttributeIndex : TXorNode → Int → Except JsErr TType)
    (xorNode : TXorNode) (maybeOptionalConstant : Option AstNode)
    (parameterType : TType)
    (hkind : xorNode.nodeKind = NodeKind.Parameter)
    (hconst : maybeChildAstByAttributeIndex coll xorNode.nodeId 0
        (some [NodeKind.Constant]) = .ok maybeOptionalConstant)
    (htype : inspectTypeFromChildAttributeIndex xorNode 2
        = .ok parameterType) :
    inspectTypeParameter coll inspectTypeFromChildAttributeIndex xorNode
      = .ok { parameterType with
                isNullable :=
                  maybeOptionalConstant.isSome || parameterType.isNullable } := by
  simp only [inspectTypeParameter, hkind, if_true, hconst, htype]
  rfl

/-- C8 witness data: a `Parameter` AST node with an `optional` constant at
attribute index 0. -/
def c8ParameterNode : AstNode :=
  { id := 1, kind := .Parameter, maybeAttributeIndex := some 0,
    tokenRange := ⟨0, 2, ⟨0, 0⟩, ⟨0, 10⟩⟩, isLeaf := false,
    payload := .noPayload }

/-- C8 witness data: the `optional` constant. -/
def c8OptionalConstant : AstNode :=
  { id := 2, kind := .Constant, maybeAttributeIndex := some 0,
    tokenRange := ⟨0, 0, ⟨0, 0⟩, ⟨0, 8⟩⟩, isLeaf := true,
    payload := .constant "optional" }

/-- C8 witness data: the collection. -/
def c8Collection : Collection :=
  { astNodeById := [(1, c8ParameterNode), (2, c8OptionalConstant)],
    contextNodeById := [], parentIdById := [(2, 1)],
    childIdsById := [(1, [2])] }

/-- C8 (witness): the theorem applied to the concrete `Parameter` node whose
declared type is non-nullable `number`; the optional marker alone makes the
result nullable. -/
theorem inspectTypeParameter_isNullable_disjunction_witness :
    inspectTypeParameter c8Collection
        (fun _ _ => .ok { kind := .Number, isNullable := false })
        (.astXor c8ParameterNode)
      = .ok { kind := .Number, isNullable := true } :=
  inspectTypeParameter_isNullable_disjunction c8Collection
    (fun _ _ => .ok { kind := .Number, isNullable := false })
    (.astXor c8ParameterNode) (some c8OptionalConstant)
    { kind := .Number, isNullable := false } (by decide) (by decide) rfl

/-- `TypeCache` (`inspection/type/common.ts`, not under `src/`): the two
memo caches.  At runtime both fields hold JS `Map`s; their value types do not
matter for the wiring, so they are a type parameter here. -/
structure TypeCache (α : Type) where
  typeById : α
  scopeById : α

/-- `InspectTypeState` (`inspectType/common.ts`, not under `src/`): the state
record built by `tryScopeType` / `tryType` (the `settings` field, unread by
the wiring, is omitted). -/
structure InspectTypeState (α : Type) where
  givenTypeById : α
  deltaTypeById : α
  nodeIdMapCollection : Collection
  leafNodeIds : List Nat
  scopeById : α

/-- The state built by `tryScopeType` (`tasks.ts` lines 25-32).  `newMap`
stands for `new Map()`. -/
def tryScopeTypeState {α : Type} (newMap : α) (coll : Collection)
    (leafNodeIds : List Nat) (maybeTypeCache : Option (TypeCache α)) :
    InspectTypeState α :=
  { givenTypeById :=
      match maybeTypeCache with
      | some typeCache => typeCache.typeById
      | none => newMap,
    deltaTypeById := newMap,
    nodeIdMapCollection := coll,
    leafNodeIds := leafNodeIds,
    scopeById :=
      match maybeTypeCache with
      | some typeCache => typeCache.scopeById
      | none => newMap }

/-- The state built by `tryType` (`tasks.ts` lines 44-51). -/
def tryTypeState {α : Type} (newMap : α) (coll : Collection)
    (leafNodeIds : List Nat) (maybeTypeCache : Option (TypeCache α)) :
    InspectTypeState α :=
  { givenTypeById :=
      match maybeTypeCache with
      | some typeCache => typeCache.scopeById
      | none => newMap,
    deltaTypeById := newMap,
    nodeIdMapCollection := coll,
    leafNodeIds := leafNodeIds,
    scopeById :=
      match maybeTypeCache with
      | some typeCache => typeCache.typeById
      | none => newMap }

/-- C5: when a `TypeCache` is supplied, `tryType` wires `givenTypeById` from
the cache's `scopeById` and `scopeById` from the cache's `typeById` — the
swapped orientation relative to `tryScopeType`, which wires `typeById` to
`givenTypeById` and `scopeById` to `scopeById`. -/
theorem tryType_cache_fields_swapped {α : Type} (newMap : α)
    (coll : Collection) (leafNodeIds : List Nat) (typeCache : TypeCache α) :
    (tryTypeState newMap coll leafNodeIds (some typeCache)).givenTypeById
        = typeCache.scopeById
      ∧ (tryTypeState newMap coll leafNodeIds (some typeCache)).scopeById
          = typeCache.typeById
      ∧ (tryScopeTypeState newMap coll leafNodeIds
            (some typeCache)).givenTypeById = typeCache.typeById
      ∧ (tryScopeTypeState newMap coll leafNodeIds
            (some typeCache)).scopeById = typeCache.scopeById :=
  ⟨rfl, rfl, rfl, rfl⟩

theorem okBind {ε α β : Type} (a : α) (f : α → Except ε β) :
    (Except.ok a : Except ε α) >>= f = f a := rfl

theorem throwEq {ε α : Type} (e : ε) :
    (throw e : Except ε α) = Except.error e := rfl

theorem pureEq {ε α : Type} (a : α) :
    (pure a : Except ε α) = Except.ok a := rfl

theorem pureBind {ε α β : Type} (a : α) (f : α → Except ε β) :
    (pure a : Except ε α) >>= f = f a := rfl

theorem errorBind {ε α β : Type} (e : ε) (f : α → Except ε β) :
    (Except.error e : Except ε α) >>= f = Except.error e := rfl

/-- `nodeIdMapIterator.assertIterChildIds` (`MapUtils.assertGet`): the child
ids of a node, throwing when the node has no children entry. -/
def assertIterChildIds (childIdsById : List (Nat × List Nat)) (nodeId : Nat) :
    Except JsErr (List Nat) :=
  match lookupMap childIdsById nodeId with
  | some childIds => pure childIds
  | none => throw (.invariantError "expected nodeId in childIdsById")

/-- Modelled from the spec: `NodeIdMapUtils.assertParentXor` is not under
`src/`; it resolves `parentIdById` for the node and asserts the parent
resolves to an XOR node. -/
def assertParentXor (coll : Collection) (nodeId : Nat) :
    Except JsErr TXorNode :=
  match lookupMap coll.parentIdById nodeId with
  | some parentId => assertXor coll parentId
  | none => throw (.invariantError "expected nodeId in parentIdById")

/-- `nodeIdMapIterator.maybeNthSiblingXor`: grabs the parent for the given
`rootId`, then returns the child of the parent at attribute index
`maybeAttributeIndex + offset`, if any.  JS `childIds[attributeIndex]` on an
out-of-bounds index yields `undefined`, and looking `undefined` up in the
maps yields `undefined`. -/
def maybeNthSiblingXor (coll : Collection) (rootId : Nat) (offset : Int) :
    Except JsErr (Option TXorNode) := do
  let childXorNode ← assertXor coll rootId
  match childXorNode.nodeAttributeIndex with
  | none => pure none
  | some rootAttributeIndex =>
    let attributeIndex : Int := rootAttributeIndex + offset
    if attributeIndex < 0 then
      pure none
    else do
      let parentXorNode ← assertParentXor coll rootId
      let childIds ← assertIterChildIds coll.childIdsById parentXorNode.nodeId
      if (childIds.length : Int) ≥ attributeIndex then
        pure none
      else
        pure ((childIds.get? attributeIndex.toNat).bind (maybeXorNode coll))

/-- C6: whenever the target attribute index is non-negative and within the
bounds of the parent's child-id list (`childIds.length ≥ attributeIndex`),
`maybeNthSiblingXor` returns `undefined`: the guard rejects the in-bounds
case. -/
theorem maybeNthSiblingXor_rejects_inBounds (coll : Collection)
    (rootId : Nat) (offset : Int) (childXorNode parentXorNode : TXorNode)
    (rootAttributeIndex : Int) (childIds : List Nat)
    (hroot : assertXor coll rootId = .ok childXorNode)
    (hattr : childXorNode.nodeAttributeIndex = some rootAttributeIndex)
    (htarget : 0 ≤ rootAttributeIndex + offset)
    (hparent : assertParentXor coll rootId = .ok parentXorNode)
    (hchildIds : lookupMap coll.childIdsById parentXorNode.nodeId
        = some childIds)
    (hlen : rootAttributeIndex + offset ≤ (childIds.length : Int)) :
    maybeNthSiblingXor coll rootId offset = .ok none := by
  have hneg : ¬ rootAttributeIndex + offset < 0 := by omega
  have hge : (childIds.length : Int) ≥ rootAttributeIndex + offset := hlen
  simp only [maybeNthSiblingXor, hroot, okBind, hattr]
  rw [if_neg hneg]
  simp only [hparent, okBind, assertIterChildIds, hchildIds, pureBind]
  rw [if_pos hge]
  rfl

/-- C6 witness data: a parent with two children at attribute indices 0, 1. -/
def c6ParentNode : AstNode :=
  { id := 1, kind := .ArrayWrapper, maybeAttributeIndex := none,
    tokenRange := ⟨0, 1, ⟨0, 0⟩, ⟨0, 4⟩⟩, isLeaf := false,
    payload := .noPayload }

/-- C6 witness data: the first child. -/
def c6ChildA : AstNode :=
  { id := 2, kind := .Csv, maybeAttributeIndex := some 0,
    tokenRange := ⟨0, 0, ⟨0, 0⟩, ⟨0, 2⟩⟩, isLeaf := true,
    payload := .noPayload }

/-- C6 witness data: the second child. -/
def c6ChildB : AstNode :=
  { id := 3, kind := .Csv, maybeAttributeIndex := some 1,
    tokenRange := ⟨1, 1, ⟨0, 2⟩, ⟨0, 4⟩⟩, isLeaf := true,
    payload := .noPayload }

/-- C6 witness data: the collection. -/
def c6Collection : Collection :=
  { astNodeById := [(1, c6ParentNode), (2, c6ChildA), (3, c6ChildB)],
    contextNodeById := [], parentIdById := [(2, 1), (3, 1)],
    childIdsById := [(1, [2, 3])] }

/-- C6 (witness): asking for the next sibling of child 2 — attribute index 1,
in bounds for the two-element child list — yields `undefined` through the
inverted guard, even though child 3 sits at exactly that index. -/
theorem maybeNthSiblingXor_rejects_inBounds_witness :
    maybeNthSiblingXor c6Collection 2 1 = .ok none :=
  maybeNthSiblingXor_rejects_inBounds c6Collection 2 1 (.astXor c6ChildA)
    (.astXor c6ParentNode) 0 [2, 3] (by decide) (by decide) (by decide)
    (by decide) (by decide) (by decide)

/-- A grapheme-cluster position (`StringUtils.GraphemePosition`): the
grapheme-aware column paired with the line/code-unit coordinates. -/
structure GraphemePosition where
  lineNumber : Int
  lineCodeUnit : Int
  columnNumber : Int
  deriving DecidableEq

/-- `LexerSnapshot`: the flat token stream.  `graphemePositionStartFrom`
(the grapheme-counting translation of a token's start) is computed in the
lexer, which is not under `src/`; it is kept abstract as a field. -/
structure LexerSnapshot where
  tokens : List Token
  graphemePositionStartFrom : Token → GraphemePosition

/-- `ParseContext.State`: the arena plus the id counter. -/
structure ContextState where
  nodeIdMapCollection : Collection
  idCounter : Nat
  leafNodeIds : List Nat

/-- `IParserState`: the parser state.  `localizationTemplates` is an external
collaborator (spec §1) and is omitted. -/
structure IParserState where
  lexerSnapshot : LexerSnapshot
  tokenIndex : Nat
  maybeCurrentToken : Option Token
  maybeCurrentTokenKind : Option TokenKind
  contextState : ContextState
  maybeCurrentContextNode : Option ContextNode

/-- `IParserStateUtils.isOnGeneralizedIdentifierStart`. -/
def isOnGeneralizedIdentifierStart (state : IParserState) (tokenIndex : Nat) :
    Bool :=
  match (state.lexerSnapshot.tokens.get? tokenIndex).map Token.kind with
  | none => false
  | some maybeTokenKind =>
    match maybeTokenKind with
    | .Identifier => true
    | .KeywordAnd => true
    | .KeywordAs => true
    | .KeywordEach => true
    | .KeywordElse => true
    | .KeywordError => true
    | .KeywordFalse => true
    | .KeywordHashBinary => true
    | .KeywordHashDate => true
    | .KeywordHashDateTime => true
    | .KeywordHashDateTimeZone => true
    | .KeywordHashDuration => true
    | .KeywordHashInfinity => true
    | .KeywordHashNan => true
    | .KeywordHashSections => true
    | .KeywordHashShared => true
    | .KeywordHashTable => true
    | .KeywordHashTime => true
    | .KeywordIf => true
    | .KeywordIn => true
    | .KeywordIs => true
    | .KeywordLet => true
    | .KeywordMeta => true
    | .KeywordNot => true
    | .KeywordOr => true
    | .KeywordOtherwise => true
    | .KeywordSection => true
    | .KeywordShared => true
    | .KeywordThen => true
    | .KeywordTrue => true
    | .KeywordTry => true
    | .KeywordType => true
    | _ => false

/-- The token kinds that may open a generalized identifier, enumerated
independently from the claim: the `Identifier` kind, the twenty keyword
kinds `and, as, each, else, error, false, if, in, is, let, meta, not, or,
otherwise, section, shared, then, true, try, type`, and the eleven
hash-keyword kinds. -/
def generalizedIdentifierStartKinds : List TokenKind :=
  [.Identifier,
   .KeywordAnd, .KeywordAs, .KeywordEach, .KeywordElse, .KeywordError,
   .KeywordFalse, .KeywordIf, .KeywordIn, .KeywordIs, .KeywordLet,
   .KeywordMeta, .KeywordNot, .KeywordOr, .KeywordOtherwise,
   .KeywordSection, .KeywordShared, .KeywordThen, .KeywordTrue,
   .KeywordTry, .KeywordType,
   .KeywordHashBinary, .KeywordHashDate, .KeywordHashDateTime,
   .KeywordHashDateTimeZone, .KeywordHashDuration, .KeywordHashInfinity,
   .KeywordHashNan, .KeywordHashSections, .KeywordHashShared,
   .KeywordHashTable, .KeywordHashTime]

/-- C7: `isOnGeneralizedIdentifierStart` returns true exactly when a token
exists at the given index and its kind is the `Identifier` kind, one of the
twenty enumerated keywords, or one of the eleven hash-keywords; in
particular it returns false when no token exists at the index. -/
theorem isOnGeneralizedIdentifierStart_characterization
    (state : IParserState) (tokenIndex : Nat) :
    isOnGeneralizedIdentifierStart state tokenIndex = true
      ↔ ∃ token, state.lexerSnapshot.tokens.get? tokenIndex = some token
          ∧ token.kind ∈ generalizedIdentifierStartKinds := by
  cases hget : state.lexerSnapshot.tokens.get? tokenIndex with
  | none =>
    unfold isOnGeneralizedIdentifierStart
    rw [hget]
    simp
  | some token =>
    obtain ⟨tokenKind, tokenData, ps, pe⟩ := token
    unfold isOnGeneralizedIdentifierStart
    rw [hget]
    cases tokenKind <;> simp [generalizedIdentifierStartKinds]

/-- The parse-error kinds relevant here (`ParseError.UnusedTokensRemainError`
carries the offending token and its grapheme position; `invariantErr` stands
for `CommonError.InvariantError` thrown by `Assert.isDefined`). -/
inductive ParseErr
  | invariantErr (message : String)
  | unusedTokensRemain (token : Token) (positionStart : GraphemePosition)
  deriving DecidableEq

/-- `IParserStateUtils.assertTokenAt`. -/
def assertTokenAt (state : IParserState) (tokenIndex : Nat) :
    Except ParseErr Token :=
  match state.lexerSnapshot.tokens.get? tokenIndex with
  | some token => pure token
  | none => throw (.invariantErr "expected token at tokenIndex")

/-- `IParserStateUtils.assertNoMoreTokens`. -/
def assertNoMoreTokens (state : IParserState) : Except ParseErr Unit :=
  if state.tokenIndex = state.lexerSnapshot.tokens.length then
    pure ()
  else do
    let token ← assertTokenAt state state.tokenIndex
    throw (.unusedTokensRemain token
      (state.lexerSnapshot.graphemePositionStartFrom token))

/-- C9: `assertNoMoreTokens` returns normally iff `tokenIndex` equals the
snapshot's token count; otherwise (for any reachable state, where
`tokenIndex` never exceeds the token count) it raises
`UnusedTokensRemainError` carrying the token at `tokenIndex` and that
token's grapheme start position. -/
theorem assertNoMoreTokens_spec (state : IParserState)
    (h : state.tokenIndex ≤ state.lexerSnapshot.tokens.length) :
    (assertNoMoreTokens state = .ok ()
        ↔ state.tokenIndex = state.lexerSnapshot.tokens.length)
      ∧ (state.tokenIndex ≠ state.lexerSnapshot.tokens.length →
          ∃ token,
            state.lexerSnapshot.tokens.get? state.tokenIndex = some token
              ∧ assertNoMoreTokens state
                  = .error (.unusedTokensRemain token
                      (state.lexerSnapshot.graphemePositionStartFrom
                        token))) := by
  by_cases heq : state.tokenIndex = state.lexerSnapshot.tokens.length
  · constructor
    · simp [assertNoMoreTokens, heq, pureEq]
    · intro hne
      exact absurd heq hne
  · have hlt : state.tokenIndex < state.lexerSnapshot.tokens.length :=
      lt_of_le_of_ne h heq
    obtain ⟨token, hget⟩ : ∃ token,
        state.lexerSnapshot.tokens.get? state.tokenIndex = some token := by
      rw [List.get?_eq_get hlt]
      exact ⟨_, rfl⟩
    constructor
    · constructor
      · intro hok
        exfalso
        rw [show assertNoMoreTokens state
              = .error (.unusedTokensRemain token
                  (state.lexerSnapshot.graphemePositionStartFrom token)) by
            simp only [assertNoMoreTokens, heq, if_false, assertTokenAt,
              hget, pureBind, throwEq]] at hok
        exact Except.noConfusion hok
      · intro hcontra
        exact absurd hcontra heq
    · intro _
      refine ⟨token, hget, ?_⟩
      simp only [assertNoMoreTokens, heq, if_false, assertTokenAt, hget,
        pureBind, throwEq]

/-- C9 witness data: a one-token snapshot with the cursor still at 0. -/
def c9Token : Token :=
  { kind := .NumericLiteral, data := "1", positionStart := ⟨0, 0⟩,
    positionEnd := ⟨0, 1⟩ }

/-- C9 witness data: the parser state. -/
def c9State : IParserState :=
  { lexerSnapshot :=
      { tokens := [c9Token],
        graphemePositionStartFrom := fun _ => ⟨0, 0, 0⟩ },
    tokenIndex := 0,
    maybeCurrentToken := some c9Token,
    maybeCurrentTokenKind := some .NumericLiteral,
    contextState :=
      { nodeIdMapCollection :=
          { astNodeById := [], contextNodeById := [], parentIdById := [],
            childIdsById := [] },
        idCounter := 0, leafNodeIds := [] },
    maybeCurrentContextNode := none }

/-- C9 (witness): the theorem applied to the concrete one-token state with an
unconsumed token. -/
theorem assertNoMoreTokens_spec_witness :
    ∃ token,
      c9State.lexerSnapshot.tokens.get? c9State.tokenIndex = some token
        ∧ assertNoMoreTokens c9State
            = .error (.unusedTokensRemain token
                (c9State.lexerSnapshot.graphemePositionStartFrom token)) :=
  (assertNoMoreTokens_spec c9State (by decide)).2 (by decide)

/-- `FastStateBackup`: the O(1) backup payload. -/
structure FastStateBackup where
  tokenIndex : Nat
  contextStateIdCounter : Nat
  maybeContextNodeId : Option Nat
  deriving DecidableEq

/-- `IParserStateUtils.fastStateBackup`. -/
def fastStateBackup (state : IParserState) : FastStateBackup :=
  { tokenIndex := state.tokenIndex,
    contextStateIdCounter := state.contextState.idCounter,
    maybeContextNodeId := state.maybeCurrentContextNode.map ContextNode.id }

/-- UTF-16 code-unit comparison of two strings, digit lists first. -/
def charListLt : List Char → List Char → Bool
  | [], [] => false
  | [], _ :: _ => true
  | _ :: _, [] => false
  | c :: cs, d :: ds =>
    if c.toNat < d.toNat then true
    else if d.toNat < c.toNat then false
    else charListLt cs ds

/-- JS `Array.prototype.sort()`'s default comparator on numbers: compare the
decimal string renderings lexicographically (so e.g. 10 sorts before 9). -/
def decimalStringLt (a b : Nat) : Bool :=
  charListLt (Nat.repr a).data (Nat.repr b).data

/-- Insertion step for `jsDefaultSort`. -/
def insertByDecimalString (a : Nat) : List Nat → List Nat
  | [] => [a]
  | b :: bs =>
      if decimalStringLt a b then a :: b :: bs
      else b :: insertByDecimalString a bs

/-- JS `array.sort()` with no comparator: ascending in decimal-string order.
Distinct numbers render to distinct strings, so any sorting algorithm gives
this same list. -/
def jsDefaultSort (l : List Nat) : List Nat :=
  l.foldr insertByDecimalString []

theorem mem_insertByDecimalString (a n : Nat) (l : List Nat) :
    n ∈ insertByDecimalString a l ↔ n = a ∨ n ∈ l := by
  induction l with
  | nil => simp [insertByDecimalString]
  | cons b bs ih =>
    by_cases hd : decimalStringLt a b = true
    · simp [insertByDecimalString, hd]
    · simp only [insertByDecimalString, if_neg hd, List.mem_cons, ih]
      tauto

theorem mem_jsDefaultSort (n : Nat) (l : List Nat) :
    n ∈ jsDefaultSort l → n ∈ l := by
  induction l with
  | nil => simp [jsDefaultSort]
  | cons b bs ih =>
    intro hmem
    rw [show jsDefaultSort (b :: bs)
          = insertByDecimalString b (jsDefaultSort bs) from rfl,
      mem_insertByDecimalString] at hmem
    rcases hmem with h | h
    · exact h ▸ List.mem_cons_self b bs
    · exact List.mem_cons_of_mem b (ih h)

/-- The new-node-id collection loop of `applyFastStateBackup`:
`if (nodeId > backupIdCounter) push(nodeId)` over the map's keys in
insertion order. -/
def collectNewNodeIds {α : Type} (m : List (Nat × α))
    (backupIdCounter : Nat) : List Nat :=
  (m.map Prod.fst).filter (fun nodeId => backupIdCounter < nodeId)

/-- `newAstNodeIds.sort().reverse()`: the order in which
`applyFastStateBackup` deletes the new AST nodes. -/
def astDeletionOrder (coll : Collection) (backupIdCounter : Nat) :
    List Nat :=
  (jsDefaultSort (collectNewNodeIds coll.astNodeById backupIdCounter)).reverse

/-- `newContextNodeIds.sort().reverse()`: the order in which
`applyFastStateBackup` deletes the new context nodes. -/
def contextDeletionOrder (coll : Collection) (backupIdCounter : Nat) :
    List Nat :=
  (jsDefaultSort
    (collectNewNodeIds coll.contextNodeById backupIdCounter)).reverse

/-- Remove `childId` from the parent's `childIdsById` entry. -/
def unlinkChildFromParent (coll : Collection) (parentId childId : Nat) :
    Collection :=
  { coll with
      childIdsById :=
        mapUpdate coll.childIdsById parentId
          (fun childIds => childIds.filter (fun cid => cid ≠ childId)) }

/-- Modelled from the spec: `ParseContextUtils.deleteAst` is not under `src/`
(§4.3: "for each deleted AST, also unlink from its parent's `childIdsById`
unless the parent is itself being deleted").  Removes the node's map entries
and, when `parentWillBeDeleted` is false, unlinks it from its parent. -/
def deleteAst (contextState : ContextState) (nodeId : Nat)
    (parentWillBeDeleted : Bool) : ContextState :=
  let coll := contextState.nodeIdMapCollection
  let maybeParentId := lookupMap coll.parentIdById nodeId
  let collErased : Collection :=
    { coll with
        astNodeById := eraseKey coll.astNodeById nodeId,
        parentIdById := eraseKey coll.parentIdById nodeId,
        childIdsById := eraseKey coll.childIdsById nodeId }
  let collFinal : Collection :=
    match maybeParentId, parentWillBeDeleted with
    | some parentId, false => unlinkChildFromParent collErased parentId nodeId
    | _, _ => collErased
  { contextState with nodeIdMapCollection := collFinal }

/-- Modelled from the spec: `ParseContextUtils.deleteContext` is not under
`src/` (§4.3: "Deleting a context node also unlinks"). -/
def deleteContext (contextState : ContextState) (nodeId : Nat) :
    ContextState :=
  let coll := contextState.nodeIdMapCollection
  let maybeParentId := lookupMap coll.parentIdById nodeId
  let collErased : Collection :=
    { coll with
        contextNodeById := eraseKey coll.contextNodeById nodeId,
        parentIdById := eraseKey coll.parentIdById nodeId,
        childIdsById := eraseKey coll.childIdsById nodeId }
  let collFinal : Collection :=
    match maybeParentId with
    | some parentId => unlinkChildFromParent collErased parentId nodeId
    | none => collErased
  { contextState with nodeIdMapCollection := collFinal }

/-- Modelled from the spec: `NodeIdMapUtils.assertContext` is not under
`src/`; looks the id up in `contextNodeById` and throws when absent. -/
def assertContext (contextNodeById : List (Nat × ContextNode))
    (nodeId : Nat) : Except JsErr ContextNode :=
  match lookupMap contextNodeById nodeId with
  | some contextNode => pure contextNode
  | none => throw (.invariantError "expected nodeId in contextNodeById")

/-- The per-node deletion step of the AST loop in `applyFastStateBackup`,
including the `parentWillBeDeleted` computation with its `>=` comparison. -/
def applyBackupDeleteAstStep (backupIdCounter : Nat)
    (contextState : ContextState) (nodeId : Nat) : ContextState :=
  let maybeParentId :=
    lookupMap contextState.nodeIdMapCollection.parentIdById nodeId
  let parentWillBeDeleted : Bool :=
    match maybeParentId with
    | some parentId => decide (parentId ≥ backupIdCounter)
    | none => false
  deleteAst contextState nodeId parentWillBeDeleted

/-- The context-state part of `applyFastStateBackup`: reset `idCounter`,
collect the node ids above the backup counter from both maps, delete the new
AST nodes then the new context nodes, each batch in `sort().reverse()`
order. -/
def applyBackupContextState (contextState : ContextState)
    (backupIdCounter : Nat) : ContextState :=
  let contextState0 : ContextState :=
    { contextState with idCounter := backupIdCounter }
  let contextState1 : ContextState :=
    (astDeletionOrder contextState0.nodeIdMapCollection
        backupIdCounter).foldl
      (applyBackupDeleteAstStep backupIdCounter) contextState0
  (contextDeletionOrder contextState0.nodeIdMapCollection
      backupIdCounter).foldl deleteContext contextState1

/-- `IParserStateUtils.applyFastStateBackup`, as a function returning the
restored state (the source mutates `state` in place).  Note the JS
truthiness test `if (backup.maybeContextNodeId)`: a backed-up context node
id of `0` behaves like `undefined`. -/
def applyFastStateBackup (state : IParserState) (backup : FastStateBackup) :
    Except JsErr IParserState := do
  let tokenIndex := backup.tokenIndex
  let maybeCurrentToken := state.lexerSnapshot.tokens.get? tokenIndex
  let maybeCurrentTokenKind := maybeCurrentToken.map Token.kind
  let contextState2 : ContextState :=
    applyBackupContextState state.contextState backup.contextStateIdCounter
  let maybeCurrentContextNode ←
    match backup.maybeContextNodeId with
    | some contextNodeId =>
        if contextNodeId ≠ 0 then do
          let contextNode ←
            assertContext contextState2.nodeIdMapCollection.contextNodeById
              contextNodeId
          pure (some contextNode)
        else
          pure none
    | none => pure none
  pure { state with
          tokenIndex := tokenIndex,
          maybeCurrentToken := maybeCurrentToken,
          maybeCurrentTokenKind := maybeCurrentTokenKind,
          contextState := contextState2,
          maybeCurrentContextNode := maybeCurrentContextNode }

theorem deleteAst_idCounter (cs : ContextState) (nodeId : Nat) (b : Bool) :
    (deleteAst cs nodeId b).idCounter = cs.idCounter := rfl

theorem deleteAst_ctxMap (cs : ContextState) (nodeId : Nat) (b : Bool) :
    (deleteAst cs nodeId b).nodeIdMapCollection.contextNodeById
      = cs.nodeIdMapCollection.contextNodeById := by
  unfold deleteAst
  dsimp only
  split <;> rfl

theorem deleteAst_astMap (cs : ContextState) (nodeId i : Nat) (b : Bool)
    (h : i ≠ nodeId) :
    lookupMap (deleteAst cs nodeId b).nodeIdMapCollection.astNodeById i
      = lookupMap cs.nodeIdMapCollection.astNodeById i := by
  unfold deleteAst
  dsimp only
  split <;>
    simp [unlinkChildFromParent, lookupMap_eraseKey _ _ _ h]

theorem deleteContext_idCounter (cs : ContextState) (nodeId : Nat) :
    (deleteContext cs nodeId).idCounter = cs.idCounter := rfl

theorem deleteContext_astMap (cs : ContextState) (nodeId : Nat) :
    (deleteContext cs nodeId).nodeIdMapCollection.astNodeById
      = cs.nodeIdMapCollection.astNodeById := by
  unfold deleteContext
  dsimp only
  split <;> rfl

theorem deleteContext_ctxMap (cs : ContextState) (nodeId i : Nat)
    (h : i ≠ nodeId) :
    lookupMap (deleteContext cs nodeId).nodeIdMapCollection.contextNodeById i
      = lookupMap cs.nodeIdMapCollection.contextNodeById i := by
  unfold deleteContext
  dsimp only
  split <;>
    simp [unlinkChildFromParent, lookupMap_eraseKey _ _ _ h]

theorem applyBackupDeleteAstStep_idCounter (backupIdCounter : Nat)
    (cs : ContextState) (nodeId : Nat) :
    (applyBackupDeleteAstStep backupIdCounter cs nodeId).idCounter
      = cs.idCounter := rfl

theorem applyBackupDeleteAstStep_ctxMap (backupIdCounter : Nat)
    (cs : ContextState) (nodeId : Nat) :
    (applyBackupDeleteAstStep backupIdCounter cs
        nodeId).nodeIdMapCollection.contextNodeById
      = cs.nodeIdMapCollection.contextNodeById := by
  unfold applyBackupDeleteAstStep
  exact deleteAst_ctxMap cs nodeId _

theorem applyBackupDeleteAstStep_astMap (backupIdCounter : Nat)
    (cs : ContextState) (nodeId i : Nat) (h : i ≠ nodeId) :
    lookupMap (applyBackupDeleteAstStep backupIdCounter cs
        nodeId).nodeIdMapCollection.astNodeById i
      = lookupMap cs.nodeIdMapCollection.astNodeById i := by
  unfold applyBackupDeleteAstStep
  exact deleteAst_astMap cs nodeId i _ h

theorem foldl_deleteAstStep_preserves (backupIdCounter : Nat)
    (ids : List Nat) (hids : ∀ n ∈ ids, backupIdCounter < n)
    (cs : ContextState) (i : Nat) (hi : i ≤ backupIdCounter) :
    lookupMap ((ids.foldl (applyBackupDeleteAstStep backupIdCounter)
        cs).nodeIdMapCollection.astNodeById) i
        = lookupMap cs.nodeIdMapCollection.astNodeById i
      ∧ (ids.foldl (applyBackupDeleteAstStep backupIdCounter)
          cs).nodeIdMapCollection.contextNodeById
          = cs.nodeIdMapCollection.contextNodeById
      ∧ (ids.foldl (applyBackupDeleteAstStep backupIdCounter) cs).idCounter
          = cs.idCounter := by
  induction ids generalizing cs with
  | nil => exact ⟨rfl, rfl, rfl⟩
  | cons n rest ih =>
    have hn : backupIdCounter < n := hids n (List.mem_cons_self n rest)
    have hin : i ≠ n := by omega
    have hrest : ∀ m ∈ rest, backupIdCounter < m := fun m hm =>
      hids m (List.mem_cons_of_mem n hm)
    obtain ⟨h1, h2, h3⟩ :=
      ih hrest (applyBackupDeleteAstStep backupIdCounter cs n)
    rw [List.foldl_cons]
    refine ⟨?_, ?_, ?_⟩
    · exact h1.trans
        (applyBackupDeleteAstStep_astMap backupIdCounter cs n i hin)
    · exact h2.trans (applyBackupDeleteAstStep_ctxMap backupIdCounter cs n)
    · exact h3.trans (applyBackupDeleteAstStep_idCounter backupIdCounter cs n)

theorem foldl_deleteContext_preserves (backupIdCounter : Nat)
    (ids : List Nat) (hids : ∀ n ∈ ids, backupIdCounter < n)
    (cs : ContextState) (i : Nat) (hi : i ≤ backupIdCounter) :
    (ids.foldl deleteContext cs).nodeIdMapCollection.astNodeById
        = cs.nodeIdMapCollection.astNodeById
      ∧ lookupMap ((ids.foldl deleteContext
          cs).nodeIdMapCollection.contextNodeById) i
          = lookupMap cs.nodeIdMapCollection.contextNodeById i
      ∧ (ids.foldl deleteContext cs).idCounter = cs.idCounter := by
  induction ids generalizing cs with
  | nil => exact ⟨rfl, rfl, rfl⟩
  | cons n rest ih =>
    have hn : backupIdCounter < n := hids n (List.mem_cons_self n rest)
    have hin : i ≠ n := by omega
    have hrest : ∀ m ∈ rest, backupIdCounter < m := fun m hm =>
      hids m (List.mem_cons_of_mem n hm)
    obtain ⟨h1, h2, h3⟩ := ih hrest (deleteContext cs n)
    rw [List.foldl_cons]
    refine ⟨?_, ?_, ?_⟩
    · exact h1.trans (deleteContext_astMap cs n)
    · exact h2.trans (deleteContext_ctxMap cs n i hin)
    · exact h3.trans (deleteContext_idCounter cs n)

theorem mem_astDeletionOrder (coll : Collection) (backupIdCounter n : Nat)
    (h : n ∈ astDeletionOrder coll backupIdCounter) : backupIdCounter < n := by
  rw [astDeletionOrder, List.mem_reverse] at h
  have hmem := mem_jsDefaultSort n _ h
  rw [collectNewNodeIds, List.mem_filter] at hmem
  simpa using hmem.2

theorem mem_contextDeletionOrder (coll : Collection)
    (backupIdCounter n : Nat)
    (h : n ∈ contextDeletionOrder coll backupIdCounter) :
    backupIdCounter < n := by
  rw [contextDeletionOrder, List.mem_reverse] at h
  have hmem := mem_jsDefaultSort n _ h
  rw [collectNewNodeIds, List.mem_filter] at hmem
  simpa using hmem.2

theorem applyBackupContextState_spec (csx : ContextState)
    (backupIdCounter : Nat) :
    (applyBackupContextState csx backupIdCounter).idCounter = backupIdCounter
      ∧ (∀ i, i ≤ backupIdCounter →
          lookupMap (applyBackupContextState csx
              backupIdCounter).nodeIdMapCollection.astNodeById i
            = lookupMap csx.nodeIdMapCollection.astNodeById i
          ∧ lookupMap (applyBackupContextState csx
              backupIdCounter).nodeIdMapCollection.contextNodeById i
            = lookupMap csx.nodeIdMapCollection.contextNodeById i) := by
  unfold applyBackupContextState
  set cs0 : ContextState := { csx with idCounter := backupIdCounter } with hcs0
  set ord1 := astDeletionOrder cs0.nodeIdMapCollection backupIdCounter
    with hord1
  set ord2 := contextDeletionOrder cs0.nodeIdMapCollection backupIdCounter
    with hord2
  set cs1 := ord1.foldl (applyBackupDeleteAstStep backupIdCounter) cs0
    with hcs1
  have hids1 : ∀ n ∈ ord1, backupIdCounter < n := fun n hn =>
    mem_astDeletionOrder _ _ n (hord1 ▸ hn)
  have hids2 : ∀ n ∈ ord2, backupIdCounter < n := fun n hn =>
    mem_contextDeletionOrder _ _ n (hord2 ▸ hn)
  constructor
  · obtain ⟨_, _, hI1⟩ :=
      foldl_deleteAstStep_preserves backupIdCounter ord1 hids1 cs0 0
        (Nat.zero_le _)
    obtain ⟨_, _, hI2⟩ :=
      foldl_deleteContext_preserves backupIdCounter ord2 hids2 cs1 0
        (Nat.zero_le _)
    rw [hI2, hcs1, hI1]
  · intro i hi
    obtain ⟨hA1, hC1, _⟩ :=
      foldl_deleteAstStep_preserves backupIdCounter ord1 hids1 cs0 i hi
    obtain ⟨hA2, hC2, _⟩ :=
      foldl_deleteContext_preserves backupIdCounter ord2 hids2 cs1 i hi
    constructor
    · rw [hA2, hcs1, hA1]
    · rw [hC2, hcs1, hC1]

/-- C2: backup/restore round trip.  `S` is the state at backup time and `Sx`
the state after a failing sequence of reads.  The hypotheses are the spec's
reachability invariants (§4.3, §5): reads never touch nodes whose id is at
or below the id counter at backup time ("any existing node is read-only
while under speculation"), ids are minted from the monotone counter (so
every node existing at backup time, in particular the current context node,
has a positive id at or below the counter), and the current context node is
registered in `contextNodeById`.  The restored state agrees with `S` on
`tokenIndex`, `idCounter`, `maybeCurrentContextNode`, and on every
`astNodeById` / `contextNodeById` entry with id at or below the backup
counter. -/
theorem applyFastStateBackup_roundTrip (S Sx : IParserState)
    (hast : ∀ i, i ≤ S.contextState.idCounter →
        lookupMap Sx.contextState.nodeIdMapCollection.astNodeById i
          = lookupMap S.contextState.nodeIdMapCollection.astNodeById i)
    (hctx : ∀ i, i ≤ S.contextState.idCounter →
        lookupMap Sx.contextState.nodeIdMapCollection.contextNodeById i
          = lookupMap S.contextState.nodeIdMapCollection.contextNodeById i)
    (hcurrent : ∀ contextNode,
        S.maybeCurrentContextNode = some contextNode →
          0 < contextNode.id
            ∧ contextNode.id ≤ S.contextState.idCounter
            ∧ lookupMap S.contextState.nodeIdMapCollection.contextNodeById
                contextNode.id = some contextNode) :
    ∃ T, applyFastStateBackup Sx (fastStateBackup S) = .ok T
      ∧ T.tokenIndex = S.tokenIndex
      ∧ T.contextState.idCounter = S.contextState.idCounter
      ∧ T.maybeCurrentContextNode = S.maybeCurrentContextNode
      ∧ (∀ i, i ≤ S.contextState.idCounter →
          lookupMap T.contextState.nodeIdMapCollection.astNodeById i
            = lookupMap S.contextState.nodeIdMapCollection.astNodeById i
          ∧ lookupMap T.contextState.nodeIdMapCollection.contextNodeById i
            = lookupMap S.contextState.nodeIdMapCollection.contextNodeById
                i) := by
  obtain ⟨hI, hPres⟩ :=
    applyBackupContextState_spec Sx.contextState S.contextState.idCounter
  cases hS : S.maybeCurrentContextNode with
  | none =>
    refine ⟨{ Sx with
        tokenIndex := S.tokenIndex,
        maybeCurrentToken := Sx.lexerSnapshot.tokens.get? S.tokenIndex,
        maybeCurrentTokenKind :=
          (Sx.lexerSnapshot.tokens.get? S.tokenIndex).map Token.kind,
        contextState :=
          applyBackupContextState Sx.contextState S.contextState.idCounter,
        maybeCurrentContextNode := none }, ?_, rfl, hI, rfl, ?_⟩
    · simp only [applyFastStateBackup, fastStateBackup, hS]
      rfl
    · intro i hi
      obtain ⟨hA, hC⟩ := hPres i hi
      exact ⟨hA.trans (hast i hi), hC.trans (hctx i hi)⟩
  | some contextNode =>
    obtain ⟨hpos, hle, hlook⟩ := hcurrent contextNode hS
    have hfinal : lookupMap (applyBackupContextState Sx.contextState
        S.contextState.idCounter).nodeIdMapCollection.contextNodeById
        contextNode.id = some contextNode :=
      ((hPres contextNode.id hle).2.trans (hctx contextNode.id hle)).trans
        hlook
    refine ⟨{ Sx with
        tokenIndex := S.tokenIndex,
        maybeCurrentToken := Sx.lexerSnapshot.tokens.get? S.tokenIndex,
        maybeCurrentTokenKind :=
          (Sx.lexerSnapshot.tokens.get? S.tokenIndex).map Token.kind,
        contextState :=
          applyBackupContextState Sx.contextState S.contextState.idCounter,
        maybeCurrentContextNode := some contextNode }, ?_, rfl, hI,
        rfl, ?_⟩
    · have hne : ¬ contextNode.id = 0 := by omega
      simp only [applyFastStateBackup, fastStateBackup, hS,
        Option.map_some', ne_eq, hne, not_false_eq_true, if_true,
        assertContext, hfinal]
      rfl
    · intro i hi
      obtain ⟨hA, hC⟩ := hPres i hi
      exact ⟨hA.trans (hast i hi), hC.trans (hctx i hi)⟩

/-- C2 witness data: the single token of the snapshot. -/
def c2Token : Token :=
  { kind := .Identifier, data := "x", positionStart := ⟨0, 0⟩,
    positionEnd := ⟨0, 1⟩ }

/-- C2 witness data: the context node current at backup time (id 2). -/
def c2ContextNode : ContextNode :=
  { id := 2, kind := .LetExpression, tokenIndexStart := 0,
    maybeTokenStart := some c2Token, attributeCounter := 1,
    maybeAttributeIndex := none }

/-- C2 witness data: an AST node existing at backup time (id 1). -/
def c2AstNode : AstNode :=
  { id := 1, kind := .Constant, maybeAttributeIndex := some 0,
    tokenRange := ⟨0, 0, ⟨0, 0⟩, ⟨0, 1⟩⟩, isLeaf := true,
    payload := .constant "let" }

/-- C2 witness data: the snapshot. -/
def c2Snapshot : LexerSnapshot :=
  { tokens := [c2Token], graphemePositionStartFrom := fun _ => ⟨0, 0, 0⟩ }

/-- C2 witness data: the state at backup time (id counter 2). -/
def c2S : IParserState :=
  { lexerSnapshot := c2Snapshot, tokenIndex := 1,
    maybeCurrentToken := none, maybeCurrentTokenKind := none,
    contextState :=
      { nodeIdMapCollection :=
          { astNodeById := [(1, c2AstNode)],
            contextNodeById := [(2, c2ContextNode)],
            parentIdById := [(1, 2)], childIdsById := [(2, [1])] },
        idCounter := 2, leafNodeIds := [1] },
    maybeCurrentContextNode := some c2ContextNode }

/-- C2 witness data: a node created by the failed speculative read (id 3). -/
def c2NewAstNode : AstNode :=
  { id := 3, kind := .Identifier, maybeAttributeIndex := some 0,
    tokenRange := ⟨0, 0, ⟨0, 0⟩, ⟨0, 1⟩⟩, isLeaf := true,
    payload := .identifier "x" }

/-- C2 witness data: a context node created by the failed read (id 4). -/
def c2NewContextNode : ContextNode :=
  { id := 4, kind := .IdentifierExpression, tokenIndexStart := 0,
    maybeTokenStart := some c2Token, attributeCounter := 1,
    maybeAttributeIndex := some 1 }

/-- C2 witness data: the state after the failed read (id counter 4). -/
def c2Sx : IParserState :=
  { lexerSnapshot := c2Snapshot, tokenIndex := 1,
    maybeCurrentToken := none, maybeCurrentTokenKind := none,
    contextState :=
      { nodeIdMapCollection :=
          { astNodeById := [(1, c2AstNode), (3, c2NewAstNode)],
            contextNodeById := [(2, c2ContextNode), (4, c2NewContextNode)],
            parentIdById := [(1, 2), (3, 4), (4, 2)],
            childIdsById := [(2, [1, 4]), (4, [3])] },
        idCounter := 4, leafNodeIds := [1, 3] },
    maybeCurrentContextNode := some c2NewContextNode }

/-- C2 (witness): the round-trip theorem applied to the concrete
backup/fail/restore scenario. -/
theorem applyFastStateBackup_roundTrip_witness :
    ∃ T, applyFastStateBackup c2Sx (fastStateBackup c2S) = .ok T
      ∧ T.tokenIndex = c2S.tokenIndex
      ∧ T.contextState.idCounter = c2S.contextState.idCounter
      ∧ T.maybeCurrentContextNode = c2S.maybeCurrentContextNode
      ∧ (∀ i, i ≤ c2S.contextState.idCounter →
          lookupMap T.contextState.nodeIdMapCollection.astNodeById i
            = lookupMap c2S.contextState.nodeIdMapCollection.astNodeById i
          ∧ lookupMap T.contextState.nodeIdMapCollection.contextNodeById i
            = lookupMap
                c2S.contextState.nodeIdMapCollection.contextNodeById i) :=
  applyFastStateBackup_roundTrip c2S c2Sx (by decide) (by decide)
    (by
      intro contextNode h
      have h2 : some c2ContextNode = some contextNode := h
      obtain rfl := Option.some.inj h2
      decide)

/-- C3 failing-input data: two AST nodes with ids 9 and 10 above a backup
counter of 8 (so that numeric and decimal-string orders disagree). -/
def c3Node9 : AstNode :=
  { id := 9, kind := .Constant, maybeAttributeIndex := some 0,
    tokenRange := ⟨0, 0, ⟨0, 0⟩, ⟨0, 1⟩⟩, isLeaf := true,
    payload := .constant "(" }

/-- C3 failing-input data: the second new AST node. -/
def c3Node10 : AstNode :=
  { id := 10, kind := .Constant, maybeAttributeIndex := some 1,
    tokenRange := ⟨1, 1, ⟨0, 1⟩, ⟨0, 2⟩⟩, isLeaf := true,
    payload := .constant ")" }

/-- C3 failing-input data: a collection whose new AST node ids are 9, 10. -/
def c3OrderCollection : Collection :=
  { astNodeById := [(9, c3Node9), (10, c3Node10)], contextNodeById := [],
    parentIdById := [], childIdsById := [] }

/-- C3 failing-input data: a surviving context node whose id equals the
backup counter (5). -/
def c3ParentContext : ContextNode :=
  { id := 5, kind := .ParameterList, tokenIndexStart := 0,
    maybeTokenStart := none, attributeCounter := 1,
    maybeAttributeIndex := none }

/-- C3 failing-input data: its AST child created after the backup (id 6). -/
def c3ChildAst : AstNode :=
  { id := 6, kind := .Constant, maybeAttributeIndex := some 0,
    tokenRange := ⟨0, 0, ⟨0, 0⟩, ⟨0, 1⟩⟩, isLeaf := true,
    payload := .constant "(" }

/-- C3 failing-input data: the errored state to restore. -/
def c3State : IParserState :=
  { lexerSnapshot :=
      { tokens := [], graphemePositionStartFrom := fun _ => ⟨0, 0, 0⟩ },
    tokenIndex := 0, maybeCurrentToken := none,
    maybeCurrentTokenKind := none,
    contextState :=
      { nodeIdMapCollection :=
          { astNodeById := [(6, c3ChildAst)],
            contextNodeById := [(5, c3ParentContext)],
            parentIdById := [(6, 5)], childIdsById := [(5, [6])] },
        idCounter := 6, leafNodeIds := [] },
    maybeCurrentContextNode := some c3ParentContext }

/-- C3 failing-input data: the backup taken when the counter was 5 and
context node 5 was current. -/
def c3Backup : FastStateBackup :=
  { tokenIndex := 0, contextStateIdCounter := 5, maybeContextNodeId := some 5 }

/-- C3 (code bug, evaluated at the failing inputs): (a) with new AST node
ids 9 and 10, `sort().reverse()` sorts by decimal strings, so the deletion
order is the ascending [9, 10] rather than the descending numeric order the
spec prescribes; (b) restoring over backup counter 5 deletes AST node 6 but
— because the unlink guard compares the parent id with `>=` while the
deletion set uses `>` — leaves the dangling child id 6 inside the surviving
parent 5's `childIdsById` entry. -/
theorem applyFastStateBackup_deletion_code_bug :
    astDeletionOrder c3OrderCollection 8 = [9, 10]
      ∧ (9 : Nat) < 10
      ∧ (applyFastStateBackup c3State c3Backup).map
          (fun T =>
            (lookupMap T.contextState.nodeIdMapCollection.contextNodeById 5,
             lookupMap T.contextState.nodeIdMapCollection.astNodeById 6,
             lookupMap T.contextState.nodeIdMapCollection.childIdsById 5))
        = .ok (some c3ParentContext, none, some [6]) := by
  decide

/-- `maybeArguments` of an inspected invoke expression (`inspection/node.ts`). -/
structure InvokeExpressionArguments where
  numArguments : Nat
  positionArgumentIndex : Nat
  deriving DecidableEq

/-- The contextual nodes pushed onto `state.result.nodes` by the visitors
(`inspection/node.ts`: `TNode`). -/
inductive InspectedNode
  | eachExpression (maybePositionStart maybePositionEnd : Option TokenPosition)
  | list (maybePositionStart maybePositionEnd : Option TokenPosition)
  | record (maybePositionStart maybePositionEnd : Option TokenPosition)
  | invokeExpression (maybePositionStart maybePositionEnd : Option TokenPosition)
      (maybeName : Option String)
      (maybeArguments : Option InvokeExpressionArguments)
  deriving DecidableEq

/-- `state.result.maybePositionIdentifier` once assigned
(`PositionIdentifierKind.Local`). -/
structure LocalPositionIdentifier where
  identifier : AstNode
  definition : TXorNode
  deriving DecidableEq

/-- The inspection `State` (`inspection/inspection.ts`, the driver file is
not under `src/`; the fields are the ones `visitNode.ts` reads and writes):
the cursor position, the collection, the identifier the cursor sits on, and
the accumulating result (`scope`, `nodes`, `maybePositionIdentifier`). -/
structure InspectionState where
  position : Position
  nodeIdMapCollection : Collection
  maybePositionIdentifier : Option AstNode
  scope : List (String × TXorNode)
  nodes : List InspectedNode
  resultPositionIdentifier : Option LocalPositionIdentifier
  deriving DecidableEq

/-- First-match lookup in the insertion-ordered scope map. -/
def scopeGet : List (String × TXorNode) → String → Option TXorNode
  | [], _ => none
  | (k, v) :: rest, key => if k = key then some v else scopeGet rest key

/-- `scopeMap.has(key)`. -/
def scopeHas (scope : List (String × TXorNode)) (key : String) : Bool :=
  (scopeGet scope key).isSome

/-- `visitNode.ts` `addToScopeIfNew`: `Map.set` appends a new key at the end
of the insertion order. -/
def addToScopeIfNew (state : InspectionState) (key : String)
    (xorNode : TXorNode) : InspectionState :=
  if scopeHas state.scope key then state
  else { state with scope := state.scope ++ [(key, xorNode)] }

/-- `visitNode.ts` `addAstToScopeIfNew`. -/
def addAstToScopeIfNew (state : InspectionState) (key : String)
    (astNode : AstNode) : InspectionState :=
  addToScopeIfNew state key (.astXor astNode)

/-- `visitNode.ts` `addContextToScopeIfNew`. -/
def addContextToScopeIfNew (state : InspectionState) (key : String)
    (contextNode : ContextNode) : InspectionState :=
  addToScopeIfNew state key (.contextXor contextNode)

/-- `state.result.nodes.push(node)`. -/
def pushNode (state : InspectionState) (node : InspectedNode) :
    InspectionState :=
  { state with nodes := state.nodes ++ [node] }

/-- `visitNode.ts` `isTokenPositionOnPosition`. -/
def isTokenPositionOnPosition (tokenPosition : TokenPosition)
    (position : Position) : Bool :=
  tokenPosition.lineNumber = position.lineNumber
    ∧ tokenPosition.lineCodeUnit = position.lineCodeUnit

/-- `visitNode.ts` `isTokenPositionBeforePostion` (source's spelling). -/
def isTokenPositionBeforePostion (tokenPosition : TokenPosition)
    (position : Position) : Bool :=
  tokenPosition.lineNumber < position.lineNumber
    ∨ (tokenPosition.lineNumber = position.lineNumber
        ∧ tokenPosition.lineCodeUnit < position.lineCodeUnit)

/-- `visitNode.ts` `isTokenPositionOnOrBeforeBeforePostion`. -/
def isTokenPositionOnOrBeforeBeforePostion (tokenPosition : TokenPosition)
    (position : Position) : Bool :=
  isTokenPositionOnPosition tokenPosition position
    || isTokenPositionBeforePostion tokenPosition position

/-- `visitNode.ts` `isPositionOnTokenRange`. -/
def isPositionOnTokenRange (position : Position) (tokenRange : TokenRange) :
    Bool :=
  let tokenRangeStart := tokenRange.positionStart
  if tokenRangeStart.lineNumber < position.lineNumber
      ∨ (tokenRangeStart.lineNumber = position.lineNumber
          ∧ tokenRangeStart.lineCodeUnit > position.lineCodeUnit) then
    false
  else
    let tokenRangeEnd := tokenRange.positionEnd
    if tokenRangeEnd.lineNumber > position.lineNumber
        ∨ (tokenRangeEnd.lineNumber = position.lineNumber
            ∧ tokenRangeEnd.lineCodeUnit < position.lineCodeUnit) then
      false
    else
      true

/-- `visitNode.ts` `isPositionOnXorNode`: a context node always counts as
containing the position. -/
def isPositionOnXorNode (position : Position) (xorNode : TXorNode) : Bool :=
  match xorNode with
  | .astXor node => isPositionOnTokenRange position node.tokenRange
  | .contextXor _ => true

/-- `visitNode.ts` `isParentOfNodeKind`. -/
def isParentOfNodeKind (coll : Collection) (childId : Nat)
    (parentNodeKind : NodeKind) : Bool :=
  match lookupMap coll.parentIdById childId with
  | none => false
  | some parentNodeId =>
    match maybeXorNode coll parentNodeId with
    | none => false
    | some parent => parent.nodeKind = parentNodeKind

/-- `NodeIdMap.expectChildByAttributeIndex`: the asserting form of
`maybeChildByAttributeIndex` (modelled from the spec, §4.4). -/
def expectChildByAttributeIndex (coll : Collection) (parentId : Nat)
    (attributeIndex : Int)
    (maybeAllowedNodeKinds : Option (List NodeKind)) :
    Except JsErr TXorNode := do
  match ← maybeChildByAttributeIndex coll parentId attributeIndex
      maybeAllowedNodeKinds with
  | some xorNode => pure xorNode
  | none => throw (.invariantError "expected child at attribute index")

/-- Resolve each id to an XOR node, asserting existence
(`nodeIdMapIterator.assertIterXor`). -/
def assertXorList (coll : Collection) : List Nat → Except JsErr (List TXorNode)
  | [] => pure []
  | nodeId :: rest => do
    let xorNode ← assertXor coll nodeId
    let xorNodes ← assertXorList coll rest
    pure (xorNode :: xorNodes)

/-- `NodeIdMap.expectXorChildren`, modelled on the source's
`assertIterChildrenXor` (same function under its later name, present in
`nodeIdMapIterator.ts`): an absent `childIdsById` entry yields `[]`. -/
def expectXorChildren (coll : Collection) (parentId : Nat) :
    Except JsErr (List TXorNode) :=
  match lookupMap coll.childIdsById parentId with
  | none => pure []
  | some childIds => assertXorList coll childIds

/-- `NodeIdMap.maybeMultipleChildByAttributeRequest` drilldown loop
(modelled from the spec: repeated `maybeChildByAttributeIndex`). -/
def drilldownLoop (coll : Collection) :
    TXorNode → List (Int × Option (List NodeKind)) →
    Except JsErr (Option TXorNode)
  | current, [] => pure (some current)
  | current, (attributeIndex, maybeAllowedNodeKinds) :: rest => do
    match ← maybeChildByAttributeIndex coll current.nodeId attributeIndex
        maybeAllowedNodeKinds with
    | none => pure none
    | some next => drilldownLoop coll next rest

/-- `NodeIdMap.maybeMultipleChildByAttributeRequest` (modelled from the
spec): follow `firstDrilldown` then each entry of `drilldowns`. -/
def maybeMultipleChildByAttributeRequest (coll : Collection)
    (rootNodeId : Nat) (firstAttributeIndex : Int)
    (firstAllowedNodeKinds : Option (List NodeKind))
    (drilldowns : List (Int × Option (List NodeKind))) :
    Except JsErr (Option TXorNode) := do
  match ← maybeChildByAttributeIndex coll rootNodeId firstAttributeIndex
      firstAllowedNodeKinds with
  | none => pure none
  | some first => drilldownLoop coll first drilldowns

/-- `visitNode.ts` `nodesOnCsvFromCsvArray`, inner loop: take each Csv's
child at attribute index 0, stopping at the first Csv without one. -/
def nodesOnCsvLoop (coll : Collection) :
    List TXorNode → Except JsErr (List TXorNode)
  | [] => pure []
  | csvXorNode :: rest => do
    match ← maybeChildByAttributeIndex coll csvXorNode.nodeId 0 none with
    | none => pure []
    | some csvNode => do
      let tail ← nodesOnCsvLoop coll rest
      pure (csvNode :: tail)

/-- `visitNode.ts` `nodesOnCsvFromCsvArray`. -/
def nodesOnCsvFromCsvArray (coll : Collection) (csvArrayXorNode : TXorNode) :
    Except JsErr (List TXorNode) := do
  let csvXorNodes ← expectXorChildren coll csvArrayXorNode.nodeId
  nodesOnCsvLoop coll csvXorNodes

/-- The JS cast `xorNode.node as Ast.Constant` followed by `.literal`: a
context node (or a non-constant payload) has no `literal` field, and string
concatenation renders the `undefined` read as `"undefined"`. -/
def xorConstantLiteralJs (xorNode : TXorNode) : String :=
  match xorNode with
  | .astXor node =>
    match node.payload with
    | .constant literal => literal
    | _ => "undefined"
  | .contextXor _ => "undefined"

/-- The JS cast `xorNode.node as Ast.Identifier` followed by `.literal`. -/
def xorIdentifierLiteralJs (xorNode : TXorNode) : String :=
  match xorNode with
  | .astXor node =>
    match node.payload with
    | .identifier literal => literal
    | _ => "undefined"
  | .contextXor _ => "undefined"

/-- The `literal` of an `Identifier` or `GeneralizedIdentifier` AST node. -/
def astIdentifierLikeLiteral (node : AstNode) : Option String :=
  match node.payload with
  | .identifier literal => some literal
  | .generalizedIdentifier literal => some literal
  | _ => none

/-- `identifierExpression.maybeInclusiveConstant` handling: the key is the
identifier's literal, prefixed with the inclusive constant when present. -/
def identifierExpressionKey (maybeInclusiveConstantLiteral : Option String)
    (identifierLiteral : String) : String :=
  match maybeInclusiveConstantLiteral with
  | some inclusiveConstantLiteral =>
      inclusiveConstantLiteral ++ identifierLiteral
  | none => identifierLiteral

/-- `visitNode.ts` `inspectEachExpression`. -/
def inspectEachExpression (state : InspectionState)
    (eachExprXorNode : TXorNode) : InspectionState :=
  let state1 := addToScopeIfNew state "_" eachExprXorNode
  match eachExprXorNode with
  | .astXor node =>
      pushNode state1
        (.eachExpression (some node.tokenRange.positionStart)
          (some node.tokenRange.positionEnd))
  | .contextXor contextNode =>
      pushNode state1
        (.eachExpression (contextNode.maybeTokenStart.map Token.positionStart)
          none)

/-- `visitNode.ts` `inspectGeneralizedIdentifier`.  A context for
`GeneralizedIdentifier` carries no values, so only the Ast case acts. -/
def inspectGeneralizedIdentifier (state : InspectionState)
    (genIdentifierXorNode : TXorNode) : Except JsErr InspectionState :=
  match genIdentifierXorNode with
  | .astXor node =>
    if node.kind = NodeKind.GeneralizedIdentifier then
      match node.payload with
      | .generalizedIdentifier literal =>
          if isTokenPositionOnOrBeforeBeforePostion
              node.tokenRange.positionEnd state.position then
            pure (addAstToScopeIfNew state literal node)
          else
            pure state
      | _ =>
          throw (.invariantError "expected GeneralizedIdentifier payload")
    else
      throw (.invariantError
        "expected xorNode to be of kind GeneralizedIdentifier")
  | .contextXor _ => pure state

/-- `visitNode.ts` `inspectIdentifier`. -/
def inspectIdentifier (state : InspectionState)
    (identifierXorNode : TXorNode) : Except JsErr InspectionState :=
  match identifierXorNode with
  | .astXor node =>
    if node.kind = NodeKind.Identifier then
      if isParentOfNodeKind state.nodeIdMapCollection node.id
          NodeKind.IdentifierExpression then
        pure state
      else
        match node.payload with
        | .identifier literal =>
            if isTokenPositionOnOrBeforeBeforePostion
                node.tokenRange.positionEnd state.position then
              pure (addAstToScopeIfNew state literal node)
            else
              pure state
        | _ => throw (.invariantError "expected Identifier payload")
    else
      throw (.invariantError "expected xorNode to be of kind Identifier")
  | .contextXor _ => pure state

/-- `visitNode.ts` `inspectIdentifierExpression`.  The Ast case adds the
(possibly `@`-prefixed) key unconditionally — there is no position check.
The context case assembles the key from the children parsed so far. -/
def inspectIdentifierExpression (state : InspectionState)
    (identifierExprXorNode : TXorNode) : Except JsErr InspectionState :=
  match identifierExprXorNode with
  | .astXor node =>
    if node.kind = NodeKind.IdentifierExpression then
      match node.payload with
      | .identifierExpression maybeInclusiveConstantLiteral
          identifierLiteral =>
          pure (addAstToScopeIfNew state
            (identifierExpressionKey maybeInclusiveConstantLiteral
              identifierLiteral) node)
      | _ => throw (.invariantError "expected IdentifierExpression payload")
    else
      throw (.invariantError
        "expected xorNode to be of kind IdentifierExpression")
  | .contextXor contextNode => do
    let maybeInclusiveConstant ←
      maybeChildByAttributeIndex state.nodeIdMapCollection contextNode.id 0
        (some [NodeKind.Constant])
    let key0 : String :=
      match maybeInclusiveConstant with
      | some inclusiveConstant => xorConstantLiteralJs inclusiveConstant
      | none => ""
    let maybeIdentifier ←
      maybeChildByAttributeIndex state.nodeIdMapCollection contextNode.id 1
        (some [NodeKind.Identifier])
    let key : String :=
      match maybeIdentifier with
      | some identifier => key0 ++ xorIdentifierLiteralJs identifier
      | none => key0
    if key.length ≠ 0 then
      pure (addContextToScopeIfNew state key contextNode)
    else
      pure state

/-- `visitNode.ts` `maybeSetPositionIdentifier`. -/
def maybeSetPositionIdentifier (state : InspectionState)
    (keyXorNode : TXorNode) (valueXorNode : TXorNode) :
    Except JsErr InspectionState :=
  match state.maybePositionIdentifier with
  | none =>
      -- Nothing to assign as position wasn't on an identifier.
      pure state
  | some positionIdentifier =>
    if state.resultPositionIdentifier ≠ none then
      -- Already assigned the result.
      pure state
    else
      match keyXorNode with
      | .contextXor _ =>
          throw (.invariantError "keyXorNode should be an Ast node")
      | .astXor keyAstNode =>
        if keyAstNode.kind = NodeKind.GeneralizedIdentifier
            ∨ keyAstNode.kind = NodeKind.Identifier then
          match astIdentifierLikeLiteral keyAstNode with
          | none =>
              throw (.invariantError
                "expected GeneralizedIdentifier or Identifier payload")
          | some keyLiteral =>
            if astIdentifierLikeLiteral positionIdentifier
                = some keyLiteral then
              pure { state with
                      resultPositionIdentifier :=
                        some { identifier := keyAstNode,
                               definition := valueXorNode } }
            else
              pure state
        else
          throw (.invariantError
            "keyAstNode is neither GeneralizedIdentifier nor Identifier")

/-- The close-wrapper check opening `inspectInvokeExpression`: for an Ast
invoke expression whose `closeWrapperConstant` ends exactly on the cursor,
the visitor returns without recording anything. -/
def invokeExpressionCloseCheck (position : Position)
    (invokeExprXorNode : TXorNode) : Except JsErr Bool :=
  match invokeExprXorNode with
  | .astXor node =>
    match node.payload with
    | .wrapped closeWrapperEnd =>
        pure (isTokenPositionOnPosition closeWrapperEnd position)
    | _ => throw (.invariantError "expected InvokeExpression payload")
  | .contextXor _ => pure false

/-- The name block of `inspectInvokeExpression`: when the invoke expression
sits at attribute index 0 of the recursive-primary-expression array, fetch
the head two ancestors up and, if it is an (Ast) `IdentifierExpression`,
take its (possibly `@`-prefixed) literal. -/
def invokeExpressionMaybeName (coll : Collection)
    (invokeExprXorNode : TXorNode) : Except JsErr (Option String) :=
  if invokeExprXorNode.nodeAttributeIndex = some 0 then do
    let recursiveArrayXorNode ← assertParentXor coll
      invokeExprXorNode.nodeId
    let recursiveExprXorNode ← assertParentXor coll
      recursiveArrayXorNode.nodeId
    let headXorNode ← expectChildByAttributeIndex coll
      recursiveExprXorNode.nodeId 0 none
    if headXorNode.nodeKind = NodeKind.IdentifierExpression then
      match headXorNode with
      | .contextXor _ =>
          throw (.invariantError
            "the younger IdentifierExpression sibling should have finished parsing before the InvokeExpression node was reached")
      | .astXor headNode =>
        match headNode.payload with
        | .identifierExpression maybeInclusiveConstantLiteral
            identifierLiteral =>
            pure (some (identifierExpressionKey
              maybeInclusiveConstantLiteral identifierLiteral))
        | _ =>
            throw (.invariantError "expected IdentifierExpression payload")
    else
      pure none
  else
    pure none

/-- `maybePositionStart` of `inspectInvokeExpression`. -/
def invokeExpressionMaybePositionStart (invokeExprXorNode : TXorNode) :
    Option TokenPosition :=
  match invokeExprXorNode with
  | .astXor node => some node.tokenRange.positionStart
  | .contextXor contextNode =>
      contextNode.maybeTokenStart.map Token.positionStart

/-- `maybePositionEnd` of `inspectInvokeExpression`. -/
def invokeExpressionMaybePositionEnd (invokeExprXorNode : TXorNode) :
    Option TokenPosition :=
  match invokeExprXorNode with
  | .astXor node => some node.tokenRange.positionEnd
  | .contextXor _ => none

/-- The argument loop of `inspectInvokeExpression`: inspect every
identifier-expression argument (no position check!) and remember the index
of the argument the cursor sits on. -/
def invokeExpressionArgsLoop (position : Position) :
    List TXorNode → Nat → Option Nat → InspectionState →
    Except JsErr (InspectionState × Option Nat)
  | [], _, maybePositionArgumentIndex, state =>
      pure (state, maybePositionArgumentIndex)
  | argXorNode :: rest, index, maybePositionArgumentIndex, state => do
    let state1 ←
      if argXorNode.nodeKind = NodeKind.IdentifierExpression then
        inspectIdentifierExpression state argXorNode
      else
        pure state
    let maybePositionArgumentIndex1 :=
      if isPositionOnXorNode position argXorNode then some index
      else maybePositionArgumentIndex
    invokeExpressionArgsLoop position rest (index + 1)
      maybePositionArgumentIndex1 state1

/-- `visitNode.ts` `inspectInvokeExpression`. -/
def inspectInvokeExpression (state : InspectionState)
    (invokeExprXorNode : TXorNode) : Except JsErr InspectionState := do
  if invokeExprXorNode.nodeKind = NodeKind.InvokeExpression then do
    let onCloseWrapper ←
      invokeExpressionCloseCheck state.position invokeExprXorNode
    if onCloseWrapper then
      pure state
    else do
      let maybeName ←
        invokeExpressionMaybeName state.nodeIdMapCollection invokeExprXorNode
      let maybePositionStart :=
        invokeExpressionMaybePositionStart invokeExprXorNode
      let maybePositionEnd :=
        invokeExpressionMaybePositionEnd invokeExprXorNode
      let maybeCsvArrayXorNode ←
        maybeChildByAttributeIndex state.nodeIdMapCollection
          invokeExprXorNode.nodeId 1 (some [NodeKind.ArrayWrapper])
      match maybeCsvArrayXorNode with
      | none =>
          pure (pushNode state
            (.invokeExpression maybePositionStart maybePositionEnd maybeName
              none))
      | some csvArrayXorNode => do
          let argXorNodes ←
            nodesOnCsvFromCsvArray state.nodeIdMapCollection csvArrayXorNode
          let loopResult ←
            invokeExpressionArgsLoop state.position argXorNodes 0 none state
          pure (pushNode loopResult.1
            (.invokeExpression maybePositionStart maybePositionEnd maybeName
              (some { numArguments := argXorNodes.length,
                      positionArgumentIndex :=
                        loopResult.2.getD 0 })))
  else
    throw (.invariantError "expected xorNode to be of kind InvokeExpression")

/-- The key-value-pair loop of `inspectLetExpression`. -/
def inspectLetExpressionLoop (coll : Collection) :
    InspectionState → List TXorNode → Except JsErr InspectionState
  | state, [] => pure state
  | state, keyValuePairXorNode :: rest => do
    let maybeKeyXorNode ←
      maybeChildByAttributeIndex coll keyValuePairXorNode.nodeId 0
        (some [NodeKind.Identifier])
    match maybeKeyXorNode with
    | none => inspectLetExpressionLoop coll state rest
    | some keyXorNode => do
      let maybeValueXorNode ←
        maybeChildByAttributeIndex coll keyValuePairXorNode.nodeId 2 none
      let state1 ←
        match maybeValueXorNode with
        | some valueXorNode =>
            maybeSetPositionIdentifier state keyXorNode valueXorNode
        | none => pure state
      inspectLetExpressionLoop coll state1 rest

/-- `visitNode.ts` `inspectLetExpression`. -/
def inspectLetExpression (state : InspectionState)
    (letExprXorNode : TXorNode) : Except JsErr InspectionState := do
  let maybeCsvArrayXorNode ←
    maybeChildByAttributeIndex state.nodeIdMapCollection
      letExprXorNode.nodeId 1 (some [NodeKind.ArrayWrapper])
  match maybeCsvArrayXorNode with
  | none => pure state
  | some csvArrayXorNode => do
    let keyValuePairs ←
      nodesOnCsvFromCsvArray state.nodeIdMapCollection csvArrayXorNode
    inspectLetExpressionLoop state.nodeIdMapCollection state keyValuePairs

/-- `visitNode.ts` `inspectListExpressionOrLiteral`. -/
def inspectListExpressionOrLiteral (state : InspectionState)
    (listXorNode : TXorNode) : Except JsErr InspectionState :=
  match listXorNode with
  | .astXor node =>
    match node.payload with
    | .wrapped closeWrapperEnd =>
      if isTokenPositionOnPosition closeWrapperEnd state.position then
        pure state
      else if isPositionOnTokenRange state.position node.tokenRange then
        pure (pushNode state
          (.list (some node.tokenRange.positionStart)
            (some node.tokenRange.positionEnd)))
      else
        pure state
    | _ => throw (.invariantError "expected List payload")
  | .contextXor contextNode =>
      pure (pushNode state
        (.list (contextNode.maybeTokenStart.map Token.positionStart) none))

/-- `visitNode.ts` `inspectParameter`: drill to the parameter's name and
inspect it as an identifier. -/
def inspectParameter (state : InspectionState)
    (parameterXorNode : TXorNode) : Except JsErr InspectionState := do
  let maybeNameXorNode ←
    maybeChildByAttributeIndex state.nodeIdMapCollection
      parameterXorNode.nodeId 1 (some [NodeKind.Identifier])
  match maybeNameXorNode with
  | none => pure state
  | some nameXorNode => inspectIdentifier state nameXorNode

/-- `visitNode.ts` `inspectFunctionExpression`: drill down to the parameter
list's array wrapper and inspect each parameter. -/
def inspectFunctionExpression (state : InspectionState)
    (fnExpressionXorNode : TXorNode) : Except JsErr InspectionState := do
  if fnExpressionXorNode.nodeKind = NodeKind.FunctionExpression then do
    let maybeCsvArrayXorNode ←
      maybeMultipleChildByAttributeRequest state.nodeIdMapCollection
        fnExpressionXorNode.nodeId 0 (some [NodeKind.ParameterList])
        [(1, some [NodeKind.ArrayWrapper])]
    match maybeCsvArrayXorNode with
    | none => pure state
    | some csvArrayXorNode => do
      let parameterXorNodes ←
        nodesOnCsvFromCsvArray state.nodeIdMapCollection csvArrayXorNode
      parameterXorNodes.foldlM inspectParameter state
  else
    throw (.invariantError
      "expected xorNode to be of kind FunctionExpression")

/-- The key-value-pair loop of `inspectRecordExpressionOrLiteral`. -/
def inspectRecordLoop (coll : Collection) :
    InspectionState → List TXorNode → Except JsErr InspectionState
  | state, [] => pure state
  | state, keyValuePairXorNode :: rest => do
    let maybeKeyXorNode ←
      maybeChildByAttributeIndex coll keyValuePairXorNode.nodeId 0
        (some [NodeKind.GeneralizedIdentifier])
    match maybeKeyXorNode with
    | none => inspectRecordLoop coll state rest
    | some keyXorNode => do
      let state1 ← inspectGeneralizedIdentifier state keyXorNode
      let maybeValueXorNode ←
        maybeChildByAttributeIndex coll keyValuePairXorNode.nodeId 2 none
      let state2 ←
        match maybeValueXorNode with
        | some valueXorNode =>
            maybeSetPositionIdentifier state1 keyXorNode valueXorNode
        | none => pure state1
      inspectRecordLoop coll state2 rest

/-- The part of `inspectRecordExpressionOrLiteral` after its switch. -/
def inspectRecordBody (state : InspectionState) (recordXorNode : TXorNode) :
    Except JsErr InspectionState := do
  let maybeCsvArrayXorNode ←
    maybeChildByAttributeIndex state.nodeIdMapCollection
      recordXorNode.nodeId 1 (some [NodeKind.ArrayWrapper])
  match maybeCsvArrayXorNode with
  | none => pure state
  | some csvArrayXorNode => do
    let keyValuePairs ←
      nodesOnCsvFromCsvArray state.nodeIdMapCollection csvArrayXorNode
    inspectRecordLoop state.nodeIdMapCollection state keyValuePairs

/-- `visitNode.ts` `inspectRecordExpressionOrLiteral`. -/
def inspectRecordExpressionOrLiteral (state : InspectionState)
    (recordXorNode : TXorNode) : Except JsErr InspectionState :=
  match recordXorNode with
  | .astXor node =>
    match node.payload with
    | .wrapped closeWrapperEnd =>
      if isTokenPositionOnPosition closeWrapperEnd state.position then
        pure state
      else
        let state0 :=
          if isPositionOnTokenRange state.position node.tokenRange then
            pushNode state
              (.record (some node.tokenRange.positionStart)
                (some node.tokenRange.positionEnd))
          else
            state
        inspectRecordBody state0 recordXorNode
    | _ => throw (.invariantError "expected Record payload")
  | .contextXor contextNode =>
      inspectRecordBody
        (pushNode state
          (.record (contextNode.maybeTokenStart.map Token.positionStart)
            none))
        recordXorNode

/-- `visitNode.ts` `inspectRecursivePrimaryExpression`: inspect the head when
it is an identifier expression. -/
def inspectRecursivePrimaryExpression (state : InspectionState)
    (recursivePrimaryExprXorNode : TXorNode) :
    Except JsErr InspectionState := do
  let maybeHeadXorNode ←
    maybeChildByAttributeIndex state.nodeIdMapCollection
      recursivePrimaryExprXorNode.nodeId 0 none
  match maybeHeadXorNode with
  | none => pure state
  | some headXorNode =>
    if headXorNode.nodeKind = NodeKind.IdentifierExpression then
      inspectIdentifierExpression state headXorNode
    else
      pure state

/-- The section-member loop of `inspectSection`. -/
def inspectSectionLoop (coll : Collection) :
    InspectionState → List TXorNode → Except JsErr InspectionState
  | state, [] => pure state
  | state, sectionMember :: rest => do
    let maybeIdentifierPairedExprXorNode ←
      maybeChildByAttributeIndex coll sectionMember.nodeId 2
        (some [NodeKind.IdentifierPairedExpression])
    match maybeIdentifierPairedExprXorNode with
    | none => inspectSectionLoop coll state rest
    | some identifierPairedExprXorNode => do
      let maybeNameXorNode ←
        maybeChildByAttributeIndex coll identifierPairedExprXorNode.nodeId 0
          (some [NodeKind.Identifier])
      match maybeNameXorNode with
      | none => inspectSectionLoop coll state rest
      | some nameXorNode => do
        let state1 ← inspectIdentifier state nameXorNode
        let maybeValueXorNode ←
          maybeChildByAttributeIndex coll identifierPairedExprXorNode.nodeId
            2 none
        let state2 ←
          match maybeValueXorNode with
          | some valueXorNode =>
              maybeSetPositionIdentifier state1 nameXorNode valueXorNode
          | none => pure state1
        inspectSectionLoop coll state2 rest

/-- `visitNode.ts` `inspectSection`. -/
def inspectSection (state : InspectionState) (sectionXorNode : TXorNode) :
    Except JsErr InspectionState := do
  let maybeSectionMemberArrayXorNode ←
    maybeChildByAttributeIndex state.nodeIdMapCollection
      sectionXorNode.nodeId 4 (some [NodeKind.ArrayWrapper])
  match maybeSectionMemberArrayXorNode with
  | none => pure state
  | some sectionMemberArrayXorNode => do
    let sectionMemberXorNodes ←
      expectXorChildren state.nodeIdMapCollection
        sectionMemberArrayXorNode.nodeId
    inspectSectionLoop state.nodeIdMapCollection state sectionMemberXorNodes

/-- `visitNode.ts` `visitNode`: the per-kind dispatch; unhandled kinds are
no-ops. -/
def visitNode (xorNode : TXorNode) (state : InspectionState) :
    Except JsErr InspectionState :=
  match xorNode.nodeKind with
  | .EachExpression => pure (inspectEachExpression state xorNode)
  | .FunctionExpression => inspectFunctionExpression state xorNode
  | .Identifier => inspectIdentifier state xorNode
  | .IdentifierExpression => inspectIdentifierExpression state xorNode
  | .InvokeExpression => inspectInvokeExpression state xorNode
  | .LetExpression => inspectLetExpression state xorNode
  | .ListExpression => inspectListExpressionOrLiteral state xorNode
  | .ListType => inspectListExpressionOrLiteral state xorNode
  | .RecordExpression => inspectRecordExpressionOrLiteral state xorNode
  | .RecordLiteral => inspectRecordExpressionOrLiteral state xorNode
  | .RecursivePrimaryExpression =>
      inspectRecursivePrimaryExpression state xorNode
  | .Section => inspectSection state xorNode
  | _ => pure state

/-- The parent-id chain of `assertAncestry` (ancestry utilities bundled with
`IParserStateUtils.ts`): `while (maybeParentId)` — note the JS truthiness,
a parent id of 0 stops the walk.  `fuel` bounds the walk. -/
def ancestryIdsFrom (parentIdById : List (Nat × Nat)) :
    Nat → Nat → List Nat
  | 0, _ => []
  | fuel + 1, nodeId =>
    match lookupMap parentIdById nodeId with
    | some parentId =>
        if parentId = 0 then []
        else parentId :: ancestryIdsFrom parentIdById fuel parentId
    | none => []

/-- `assertAncestry`: the node itself followed by its parent chain, resolved
to XOR nodes. -/
def assertAncestry (coll : Collection) (fuel : Nat) (rootId : Nat) :
    Except JsErr (List TXorNode) :=
  assertXorList coll (rootId :: ancestryIdsFrom coll.parentIdById fuel rootId)

/-- Modelled from the spec: the inspection driver (§4.5, not under `src/`)
walks the ancestry from the closest leaf to the root, invoking `visitNode`
on each node. -/
def inspectAncestry (ancestry : List TXorNode) (state : InspectionState) :
    Except JsErr InspectionState :=
  ancestry.foldlM (fun currentState xorNode => visitNode xorNode currentState)
    state

/-- C1 counterexample data, the parse of `f(x, y)`:
the `RecursivePrimaryExpression` root. -/
def c1NodeRoot : AstNode :=
  { id := 1, kind := .RecursivePrimaryExpression,
    maybeAttributeIndex := none,
    tokenRange := ⟨0, 6, ⟨0, 0⟩, ⟨0, 7⟩⟩, isLeaf := false,
    payload := .noPayload }

/-- C1 counterexample data: the head identifier expression `f`. -/
def c1NodeHead : AstNode :=
  { id := 2, kind := .IdentifierExpression, maybeAttributeIndex := some 0,
    tokenRange := ⟨0, 0, ⟨0, 0⟩, ⟨0, 1⟩⟩, isLeaf := false,
    payload := .identifierExpression none "f" }

/-- C1 counterexample data: the identifier `f` under the head. -/
def c1NodeHeadIdentifier : AstNode :=
  { id := 3, kind := .Identifier, maybeAttributeIndex := some 1,
    tokenRange := ⟨0, 0, ⟨0, 0⟩, ⟨0, 1⟩⟩, isLeaf := true,
    payload := .identifier "f" }

/-- C1 counterexample data: the recursive-expression array wrapper. -/
def c1NodeRecursiveArray : AstNode :=
  { id := 4, kind := .ArrayWrapper, maybeAttributeIndex := some 1,
    tokenRange := ⟨1, 6, ⟨0, 1⟩, ⟨0, 7⟩⟩, isLeaf := false,
    payload := .noPayload }

/-- C1 counterexample data: the invoke expression `(x, y)`. -/
def c1NodeInvoke : AstNode :=
  { id := 5, kind := .InvokeExpression, maybeAttributeIndex := some 0,
    tokenRange := ⟨1, 6, ⟨0, 1⟩, ⟨0, 7⟩⟩, isLeaf := false,
    payload := .wrapped ⟨0, 7⟩ }

/-- C1 counterexample data: the `(` constant. -/
def c1NodeOpenParen : AstNode :=
  { id := 6, kind := .Constant, maybeAttributeIndex := some 0,
    tokenRange := ⟨1, 1, ⟨0, 1⟩, ⟨0, 2⟩⟩, isLeaf := true,
    payload := .constant "(" }

/-- C1 counterexample data: the argument array wrapper. -/
def c1NodeArgsArray : AstNode :=
  { id := 7, kind := .ArrayWrapper, maybeAttributeIndex := some 1,
    tokenRange := ⟨2, 5, ⟨0, 2⟩, ⟨0, 6⟩⟩, isLeaf := false,
    payload := .noPayload }

/-- C1 counterexample data: the first Csv (around `x`). -/
def c1NodeCsvX : AstNode :=
  { id := 8, kind := .Csv, maybeAttributeIndex := some 0,
    tokenRange := ⟨2, 3, ⟨0, 2⟩, ⟨0, 4⟩⟩, isLeaf := false,
    payload := .noPayload }

/-- C1 counterexample data: the first argument `x`, before the cursor. -/
def c1NodeX : AstNode :=
  { id := 9, kind := .IdentifierExpression, maybeAttributeIndex := some 0,
    tokenRange := ⟨2, 2, ⟨0, 2⟩, ⟨0, 3⟩⟩, isLeaf := false,
    payload := .identifierExpression none "x" }

/-- C1 counterexample data: the second Csv (around `y`). -/
def c1NodeCsvY : AstNode :=
  { id := 10, kind := .Csv, maybeAttributeIndex := some 1,
    tokenRange := ⟨4, 4, ⟨0, 5⟩, ⟨0, 6⟩⟩, isLeaf := false,
    payload := .noPayload }

/-- C1 counterexample data: the second argument `y`, which starts strictly
after the cursor. -/
def c1NodeY : AstNode :=
  { id := 11, kind := .IdentifierExpression, maybeAttributeIndex := some 0,
    tokenRange := ⟨4, 4, ⟨0, 5⟩, ⟨0, 6⟩⟩, isLeaf := false,
    payload := .identifierExpression none "y" }

/-- C1 counterexample data: the `)` constant. -/
def c1NodeCloseParen : AstNode :=
  { id := 12, kind := .Constant, maybeAttributeIndex := some 2,
    tokenRange := ⟨6, 6, ⟨0, 6⟩, ⟨0, 7⟩⟩, isLeaf := true,
    payload := .constant ")" }

/-- C1 counterexample data: the node-id map of `f(x, y)`. -/
def c1Collection : Collection :=
  { astNodeById :=
      [(1, c1NodeRoot), (2, c1NodeHead), (3, c1NodeHeadIdentifier),
       (4, c1NodeRecursiveArray), (5, c1NodeInvoke), (6, c1NodeOpenParen),
       (7, c1NodeArgsArray), (8, c1NodeCsvX), (9, c1NodeX),
       (10, c1NodeCsvY), (11, c1NodeY), (12, c1NodeCloseParen)],
    contextNodeById := [],
    parentIdById :=
      [(2, 1), (3, 2), (4, 1), (5, 4), (6, 5), (7, 5), (8, 7), (9, 8),
       (10, 7), (11, 10), (12, 5)],
    childIdsById :=
      [(1, [2, 4]), (2, [3]), (4, [5]), (5, [6, 7, 12]), (7, [8, 10]),
       (8, [9]), (10, [11])] }

/-- C1 counterexample data: the cursor at (0,3), immediately after `x`. -/
def c1Position : Position := ⟨0, 3⟩

/-- C1 counterexample data: the initial inspection state. -/
def c1InitialState : InspectionState :=
  { position := c1Position, nodeIdMapCollection := c1Collection,
    maybePositionIdentifier := none, scope := [], nodes := [],
    resultPositionIdentifier := none }

/-- C1 (counterexample): walking the ancestry of the leaf `x` in `f(x, y)`
with the cursor at (0,3) — immediately after `x` — produces a scope map that
binds `y`, whose `positionStart` (0,5) is strictly after the cursor:
`inspectInvokeExpression` inspects identifier-expression arguments with no
position check, so the claimed invariant fails. -/
theorem visitNode_scope_forward_reference_counterexample :
    ((assertAncestry c1Collection 20 9).bind
        (fun ancestry => inspectAncestry ancestry c1InitialState)).map
        (fun state => scopeGet state.scope "y")
      = .ok (some (.astXor c1NodeY))
    ∧ c1Position.lineNumber = c1NodeY.tokenRange.positionStart.lineNumber
    ∧ c1Position.lineCodeUnit < c1NodeY.tokenRange.positionStart.lineCodeUnit
      := by
  decide

theorem scopeGet_append_right (scope : List (String × TXorNode))
    (key k : String) (xorNode : TXorNode) :
    scopeGet (scope ++ [(key, xorNode)]) k
      = match scopeGet scope k with
        | some v => some v
        | none => if key = k then some xorNode else none := by
  induction scope with
  | nil => rfl
  | cons kv rest ih =>
    obtain ⟨k0, v0⟩ := kv
    by_cases h0 : k0 = k <;> simp [scopeGet, h0, ih]

theorem scopeHas_addToScopeIfNew_self (state : InspectionState)
    (key : String) (xorNode : TXorNode) :
    scopeHas (addToScopeIfNew state key xorNode).scope key = true := by
  unfold addToScopeIfNew
  by_cases h : scopeHas state.scope key = true
  · simp [h]
  · rw [if_neg (by simpa using h)]
    simp only [scopeHas]
    rw [scopeGet_append_right]
    rcases hg : scopeGet state.scope key with _ | v <;> simp [hg]

theorem scopeHas_addToScopeIfNew_mono (state : InspectionState)
    (key k : String) (xorNode : TXorNode)
    (h : scopeHas state.scope k = true) :
    scopeHas (addToScopeIfNew state key xorNode).scope k = true := by
  unfold addToScopeIfNew
  by_cases hin : scopeHas state.scope key = true
  · simpa [hin]
  · rw [if_neg (by simpa using hin)]
    simp only [scopeHas] at h ⊢
    rw [scopeGet_append_right]
    rcases hg : scopeGet state.scope k with _ | v
    · rw [hg] at h
      simp at h
    · simp

theorem inspectIdentifierExpression_scope_mono (state : InspectionState)
    (xorNode : TXorNode) (state1 : InspectionState) (k : String)
    (hrun : inspectIdentifierExpression state xorNode = .ok state1)
    (h : scopeHas state.scope k = true) :
    scopeHas state1.scope k = true := by
  rcases xorNode with node | contextNode
  · unfold inspectIdentifierExpression at hrun
    dsimp only at hrun
    by_cases hkind : node.kind = NodeKind.IdentifierExpression
    · rw [hkind] at hrun
      simp only [if_true] at hrun
      rcases hpay : node.payload with l | l | l | ⟨mic, lit⟩ | cwe | _ <;>
        rw [hpay] at hrun <;> dsimp only at hrun <;>
        first
          | (rw [throwEq] at hrun
             exact Except.noConfusion hrun)
          | (rw [pureEq] at hrun
             cases hrun
             exact scopeHas_addToScopeIfNew_mono state _ k _ h)
    · rw [if_neg hkind, throwEq] at hrun
      exact Except.noConfusion hrun
  · unfold inspectIdentifierExpression at hrun
    dsimp only at hrun
    rcases h0 : maybeChildByAttributeIndex state.nodeIdMapCollection
        contextNode.id 0 (some [NodeKind.Constant]) with e | mConst
    · rw [h0, errorBind] at hrun
      exact Except.noConfusion hrun
    · rw [h0, okBind] at hrun
      try dsimp only at hrun
      rcases h1 : maybeChildByAttributeIndex state.nodeIdMapCollection
          contextNode.id 1 (some [NodeKind.Identifier]) with e | mIdent
      · rw [h1, errorBind] at hrun
        exact Except.noConfusion hrun
      · rw [h1, okBind] at hrun
        try dsimp only at hrun
        split at hrun
        · rw [pureEq] at hrun
          cases hrun
          exact scopeHas_addToScopeIfNew_mono state _ k _ h
        · rw [pureEq] at hrun
          cases hrun
          exact h

theorem inspectIdentifierExpression_adds_key (state : InspectionState)
    (argNode : AstNode) (state1 : InspectionState)
    (maybeInclusiveConstantLiteral : Option String)
    (identifierLiteral : String)
    (hkind : argNode.kind = NodeKind.IdentifierExpression)
    (hpay : argNode.payload
        = .identifierExpression maybeInclusiveConstantLiteral
            identifierLiteral)
    (hrun : inspectIdentifierExpression state (.astXor argNode)
        = .ok state1) :
    scopeHas state1.scope
      (identifierExpressionKey maybeInclusiveConstantLiteral
        identifierLiteral) = true := by
  unfold inspectIdentifierExpression at hrun
  dsimp only at hrun
  rw [hkind] at hrun
  simp only [if_true] at hrun
  rw [hpay] at hrun
  dsimp only at hrun
  rw [pureEq] at hrun
  cases hrun
  exact scopeHas_addToScopeIfNew_self state _ _

theorem invokeExpressionArgsLoop_scope_mono (position : Position)
    (args : List TXorNode) (index : Nat) (acc : Option Nat)
    (state state1 : InspectionState) (m : Option Nat) (k : String)
    (hrun : invokeExpressionArgsLoop position args index acc state
        = .ok (state1, m))
    (h : scopeHas state.scope k = true) :
    scopeHas state1.scope k = true := by
  induction args generalizing index acc state with
  | nil =>
    unfold invokeExpressionArgsLoop at hrun
    rw [pureEq] at hrun
    cases hrun
    exact h
  | cons argXorNode rest ih =>
    unfold invokeExpressionArgsLoop at hrun
    by_cases hk : argXorNode.nodeKind = NodeKind.IdentifierExpression
    · rw [if_pos hk] at hrun
      rcases hstep : inspectIdentifierExpression state argXorNode
          with e | stateStep
      · rw [hstep, errorBind] at hrun
        exact Except.noConfusion hrun
      · rw [hstep, okBind] at hrun
        exact ih _ _ stateStep hrun
          (inspectIdentifierExpression_scope_mono state argXorNode
            stateStep k hstep h)
    · rw [if_neg hk, pureBind] at hrun
      exact ih _ _ state hrun h

theorem invokeExpressionArgsLoop_adds_key (position : Position)
    (args : List TXorNode) (index : Nat) (acc : Option Nat)
    (state state1 : InspectionState) (m : Option Nat) (argNode : AstNode)
    (maybeInclusiveConstantLiteral : Option String)
    (identifierLiteral : String)
    (hmem : TXorNode.astXor argNode ∈ args)
    (hargKind : argNode.kind = NodeKind.IdentifierExpression)
    (hpayload : argNode.payload
        = .identifierExpression maybeInclusiveConstantLiteral
            identifierLiteral)
    (hrun : invokeExpressionArgsLoop position args index acc state
        = .ok (state1, m)) :
    scopeHas state1.scope
      (identifierExpressionKey maybeInclusiveConstantLiteral
        identifierLiteral) = true := by
  induction args generalizing index acc state with
  | nil => cases hmem
  | cons argXorNode rest ih =>
    unfold invokeExpressionArgsLoop at hrun
    rcases List.mem_cons.mp hmem with hhead | htail
    · have hk : argXorNode.nodeKind = NodeKind.IdentifierExpression := by
        rw [← hhead]
        exact hargKind
      rw [if_pos hk] at hrun
      rcases hstep : inspectIdentifierExpression state argXorNode
          with e | stateStep
      · rw [hstep, errorBind] at hrun
        exact Except.noConfusion hrun
      · rw [hstep, okBind] at hrun
        have hadded : scopeHas stateStep.scope
            (identifierExpressionKey maybeInclusiveConstantLiteral
              identifierLiteral) = true := by
          rw [← hhead] at hstep
          exact inspectIdentifierExpression_adds_key state argNode
            stateStep _ _ hargKind hpayload hstep
        exact invokeExpressionArgsLoop_scope_mono position rest _ _
          stateStep state1 m _ hrun hadded
    · by_cases hk : argXorNode.nodeKind = NodeKind.IdentifierExpression
      · rw [if_pos hk] at hrun
        rcases hstep : inspectIdentifierExpression state argXorNode
            with e | stateStep
        · rw [hstep, errorBind] at hrun
          exact Except.noConfusion hrun
        · rw [hstep, okBind] at hrun
          exact ih _ _ stateStep htail hrun
      · rw [if_neg hk, pureBind] at hrun
        exact ih _ _ state htail hrun

theorem invokeExpressionArgsLoop_acc_of_noArgOnPosition
    (position : Position) (args : List TXorNode) (index : Nat)
    (acc : Option Nat) (state state1 : InspectionState) (m : Option Nat)
    (hnone : ∀ arg ∈ args, isPositionOnXorNode position arg = false)
    (hrun : invokeExpressionArgsLoop position args index acc state
        = .ok (state1, m)) :
    m = acc := by
  induction args generalizing index acc state with
  | nil =>
    unfold invokeExpressionArgsLoop at hrun
    rw [pureEq] at hrun
    cases hrun
    rfl
  | cons argXorNode rest ih =>
    unfold invokeExpressionArgsLoop at hrun
    have hhead : isPositionOnXorNode position argXorNode = false :=
      hnone argXorNode (List.mem_cons_self argXorNode rest)
    have hrest : ∀ arg ∈ rest, isPositionOnXorNode position arg = false :=
      fun arg harg => hnone arg (List.mem_cons_of_mem argXorNode harg)
    rw [hhead] at hrun
    by_cases hk : argXorNode.nodeKind = NodeKind.IdentifierExpression
    · rw [if_pos hk] at hrun
      rcases hstep : inspectIdentifierExpression state argXorNode
          with e | stateStep
      · rw [hstep, errorBind] at hrun
        exact Except.noConfusion hrun
      · rw [hstep, okBind] at hrun
        simp only [Bool.false_eq_true, if_false] at hrun
        exact ih _ _ stateStep hrest hrun
    · rw [if_neg hk, pureBind] at hrun
      simp only [Bool.false_eq_true, if_false] at hrun
      exact ih _ _ state hrest hrun

theorem inspectInvokeExpression_ok_inversion (state : InspectionState)
    (invokeExprXorNode : TXorNode) (csvArrayXorNode : TXorNode)
    (argXorNodes : List TXorNode) (stateResult : InspectionState)
    (hkind : invokeExprXorNode.nodeKind = NodeKind.InvokeExpression)
    (hclose : invokeExpressionCloseCheck state.position invokeExprXorNode
        = .ok false)
    (hcsv : maybeChildByAttributeIndex state.nodeIdMapCollection
        invokeExprXorNode.nodeId 1 (some [NodeKind.ArrayWrapper])
        = .ok (some csvArrayXorNode))
    (hargs : nodesOnCsvFromCsvArray state.nodeIdMapCollection
        csvArrayXorNode = .ok argXorNodes)
    (hrun : inspectInvokeExpression state invokeExprXorNode
        = .ok stateResult) :
    ∃ maybeName state1 maybePositionArgumentIndex,
      invokeExpressionArgsLoop state.position argXorNodes 0 none state
          = .ok (state1, maybePositionArgumentIndex)
        ∧ stateResult = pushNode state1
            (.invokeExpression
              (invokeExpressionMaybePositionStart invokeExprXorNode)
              (invokeExpressionMaybePositionEnd invokeExprXorNode)
              maybeName
              (some { numArguments := argXorNodes.length,
                      positionArgumentIndex :=
                        maybePositionArgumentIndex.getD 0 })) := by
  unfold inspectInvokeExpression at hrun
  rw [hkind] at hrun
  simp only [if_true] at hrun
  rw [hclose, okBind] at hrun
  simp only [Bool.false_eq_true, if_false] at hrun
  rcases hname : invokeExpressionMaybeName state.nodeIdMapCollection
      invokeExprXorNode with e | maybeName
  · rw [hname, errorBind] at hrun
    exact Except.noConfusion hrun
  · rw [hname, okBind] at hrun
    try dsimp only at hrun
    rw [hcsv, okBind] at hrun
    try dsimp only at hrun
    rw [hargs, okBind] at hrun
    try dsimp only at hrun
    rcases hloop : invokeExpressionArgsLoop state.position argXorNodes 0
        none state with e | loopResult
    · rw [hloop, errorBind] at hrun
      exact Except.noConfusion hrun
    · obtain ⟨state1, maybeIdx⟩ := loopResult
      rw [hloop, okBind] at hrun
      rw [pureEq] at hrun
      cases hrun
      exact ⟨maybeName, state1, maybeIdx, rfl, rfl⟩

/-- C1 (amended): identifier-expression arguments of an invoke expression
are added to the scope map with no position check: whenever the invoke
visitor runs to completion and reaches its argument loop, the key of every
Ast identifier-expression argument — wherever it lies relative to the
cursor — is in the resulting scope map. -/
theorem inspectInvokeExpression_adds_identifierExpression_arguments
    (state : InspectionState) (invokeExprXorNode : TXorNode)
    (csvArrayXorNode : TXorNode) (argXorNodes : List TXorNode)
    (stateResult : InspectionState) (argNode : AstNode)
    (maybeInclusiveConstantLiteral : Option String)
    (identifierLiteral : String)
    (hkind : invokeExprXorNode.nodeKind = NodeKind.InvokeExpression)
    (hclose : invokeExpressionCloseCheck state.position invokeExprXorNode
        = .ok false)
    (hcsv : maybeChildByAttributeIndex state.nodeIdMapCollection
        invokeExprXorNode.nodeId 1 (some [NodeKind.ArrayWrapper])
        = .ok (some csvArrayXorNode))
    (hargs : nodesOnCsvFromCsvArray state.nodeIdMapCollection
        csvArrayXorNode = .ok argXorNodes)
    (hmem : TXorNode.astXor argNode ∈ argXorNodes)
    (hargKind : argNode.kind = NodeKind.IdentifierExpression)
    (hpayload : argNode.payload
        = .identifierExpression maybeInclusiveConstantLiteral
            identifierLiteral)
    (hrun : inspectInvokeExpression state invokeExprXorNode
        = .ok stateResult) :
    scopeHas stateResult.scope
      (identifierExpressionKey maybeInclusiveConstantLiteral
        identifierLiteral) = true := by
  obtain ⟨maybeName, state1, maybePositionArgumentIndex, hloop, heq⟩ :=
    inspectInvokeExpression_ok_inversion state invokeExprXorNode
      csvArrayXorNode argXorNodes stateResult hkind hclose hcsv hargs hrun
  rw [heq]
  exact invokeExpressionArgsLoop_adds_key state.position argXorNodes 0 none
    state state1 maybePositionArgumentIndex argNode _ _ hmem hargKind
    hpayload hloop

/-- C10: for an invoke expression with an argument `ArrayWrapper` child,
when the cursor lies on none of the arguments, the pushed invoke node still
reports `positionArgumentIndex` 0 — indistinguishable from a cursor on the
first argument. -/
theorem inspectInvokeExpression_positionArgumentIndex_defaultsZero
    (state : InspectionState) (invokeExprXorNode : TXorNode)
    (csvArrayXorNode : TXorNode) (argXorNodes : List TXorNode)
    (stateResult : InspectionState)
    (hkind : invokeExprXorNode.nodeKind = NodeKind.InvokeExpression)
    (hclose : invokeExpressionCloseCheck state.position invokeExprXorNode
        = .ok false)
    (hcsv : maybeChildByAttributeIndex state.nodeIdMapCollection
        invokeExprXorNode.nodeId 1 (some [NodeKind.ArrayWrapper])
        = .ok (some csvArrayXorNode))
    (hargs : nodesOnCsvFromCsvArray state.nodeIdMapCollection
        csvArrayXorNode = .ok argXorNodes)
    (hnoArg : ∀ arg ∈ argXorNodes,
        isPositionOnXorNode state.position arg = false)
    (hrun : inspectInvokeExpression state invokeExprXorNode
        = .ok stateResult) :
    ∃ maybeName state1,
      stateResult = pushNode state1
        (.invokeExpression
          (invokeExpressionMaybePositionStart invokeExprXorNode)
          (invokeExpressionMaybePositionEnd invokeExprXorNode)
          maybeName
          (some { numArguments := argXorNodes.length,
                  positionArgumentIndex := 0 })) := by
  obtain ⟨maybeName, state1, maybePositionArgumentIndex, hloop, heq⟩ :=
    inspectInvokeExpression_ok_inversion state invokeExprXorNode
      csvArrayXorNode argXorNodes stateResult hkind hclose hcsv hargs hrun
  have hnone : maybePositionArgumentIndex = none :=
    invokeExpressionArgsLoop_acc_of_noArgOnPosition state.position
      argXorNodes 0 none state state1 maybePositionArgumentIndex hnoArg
      hloop
  rw [hnone] at heq
  exact ⟨maybeName, state1, heq⟩

/-- C1 witness data: the state produced by the invoke visitor of `f(x, y)`
with the cursor at (0,3): both arguments are in scope, `y` included. -/
def c1InvokeResult : InspectionState :=
  { c1InitialState with
      scope := [("x", .astXor c1NodeX), ("y", .astXor c1NodeY)],
      nodes := [.invokeExpression (some ⟨0, 1⟩) (some ⟨0, 7⟩) (some "f")
        (some ⟨2, 0⟩)] }

/-- C1 (witness): the amended theorem applied to the invoke expression of
`f(x, y)`: the argument `y`, lying entirely after the cursor, is in the
resulting scope map. -/
theorem inspectInvokeExpression_adds_arguments_witness :
    scopeHas c1InvokeResult.scope (identifierExpressionKey none "y")
      = true :=
  inspectInvokeExpression_adds_identifierExpression_arguments
    c1InitialState (.astXor c1NodeInvoke) (.astXor c1NodeArgsArray)
    [.astXor c1NodeX, .astXor c1NodeY] c1InvokeResult c1NodeY none "y"
    (by decide) (by decide) (by decide) (by decide) (by decide) (by decide)
    (by decide) (by decide)

/-- C10 witness data: the open-parenthesis token of a partial invoke. -/
def c10Token : Token :=
  { kind := .LeftParenthesis, data := "(", positionStart := ⟨0, 1⟩,
    positionEnd := ⟨0, 2⟩ }

/-- C10 witness data: the invoke expression still being parsed. -/
def c10InvokeContext : ContextNode :=
  { id := 5, kind := .InvokeExpression, tokenIndexStart := 1,
    maybeTokenStart := some c10Token, attributeCounter := 2,
    maybeAttributeIndex := some 1 }

/-- C10 witness data: the `(` constant. -/
def c10OpenParen : AstNode :=
  { id := 6, kind := .Constant, maybeAttributeIndex := some 0,
    tokenRange := ⟨1, 1, ⟨0, 1⟩, ⟨0, 2⟩⟩, isLeaf := true,
    payload := .constant "(" }

/-- C10 witness data: the argument array wrapper. -/
def c10ArgsArray : AstNode :=
  { id := 7, kind := .ArrayWrapper, maybeAttributeIndex := some 1,
    tokenRange := ⟨2, 2, ⟨0, 2⟩, ⟨0, 3⟩⟩, isLeaf := false,
    payload := .noPayload }

/-- C10 witness data: the lone Csv. -/
def c10Csv : AstNode :=
  { id := 8, kind := .Csv, maybeAttributeIndex := some 0,
    tokenRange := ⟨2, 2, ⟨0, 2⟩, ⟨0, 3⟩⟩, isLeaf := false,
    payload := .noPayload }

/-- C10 witness data: the lone argument `x` at (0,2)-(0,3). -/
def c10ArgX : AstNode :=
  { id := 9, kind := .IdentifierExpression, maybeAttributeIndex := some 0,
    tokenRange := ⟨2, 2, ⟨0, 2⟩, ⟨0, 3⟩⟩, isLeaf := false,
    payload := .identifierExpression none "x" }

/-- C10 witness data: the node-id map. -/
def c10Collection : Collection :=
  { astNodeById :=
      [(6, c10OpenParen), (7, c10ArgsArray), (8, c10Csv), (9, c10ArgX)],
    contextNodeById := [(5, c10InvokeContext)],
    parentIdById := [(6, 5), (7, 5), (8, 7), (9, 8)],
    childIdsById := [(5, [6, 7]), (7, [8]), (8, [9])] }

/-- C10 witness data: the inspection state, cursor at (0,9) — on none of
the arguments. -/
def c10State : InspectionState :=
  { position := ⟨0, 9⟩, nodeIdMapCollection := c10Collection,
    maybePositionIdentifier := none, scope := [], nodes := [],
    resultPositionIdentifier := none }

/-- C10 witness data: the state produced by the invoke visitor. -/
def c10Result : InspectionState :=
  { c10State with
      scope := [("x", .astXor c10ArgX)],
      nodes := [.invokeExpression (some ⟨0, 1⟩) none none (some ⟨1, 0⟩)] }

/-- C10 (witness): the theorem applied to the partial invoke with the cursor
on no argument: the reported `positionArgumentIndex` is 0. -/
theorem inspectInvokeExpression_defaultsZero_witness :
    ∃ maybeName state1,
      c10Result = pushNode state1
        (.invokeExpression
          (invokeExpressionMaybePositionStart (.contextXor c10InvokeContext))
          (invokeExpressionMaybePositionEnd (.contextXor c10InvokeContext))
          maybeName
          (some { numArguments := [TXorNode.astXor c10ArgX].length,
                  positionArgumentIndex := 0 })) :=
  inspectInvokeExpression_positionArgumentIndex_defaultsZero c10State
    (.contextXor c10InvokeContext) (.astXor c10ArgsArray)
    [.astXor c10ArgX] c10Result (by decide) (by decide) (by decide)
    (by decide) (by decide) (by decide)
